import Mathlib

/-!
Shallow embedding of the GOG text-format parser of this repository
(simCore::GOG::Parser and the simCore::GOG shape object model).

The parser implementation itself is not among the provided source files;
only its test suite (Testing/SimCore/GogTest.cpp) is.  The definitions
below are therefore modelled from the specification document, with the
in-repository tests taken as the authority wherever they pin down the
behaviour (in particular: unit overrides apply to the whole block
regardless of line order, and the special `# kml_icon` comment sets the
icon file of an in-progress block).

Numeric values are rationals.  Angle-valued quantities are represented
exactly by the pair `RVal` with semantics `q + d * (pi / 180)` radians:
a degree input `x` converts to radians as `(0, x)`, a radian input `r`
is `(r, 0)`, and lengths in meters use the `q` component with `d = 0`.
Since `pi` is irrational the representation is injective on everything
the parser produces, so equality of `RVal`s coincides with equality of
the real values they denote.

Rational arithmetic is restored to its definitional behaviour so that
concrete parses evaluate inside the kernel.
-/

set_option allowUnsafeReducibility true

attribute [local semireducible] Rat.mul Rat.add Rat.sub Rat.div Rat.neg Rat.inv

/-- Modelled from the spec: an exact representative of the real number
`q + d * (pi / 180)`; used for all numeric fields of finalized shapes
(lengths in meters carry `d = 0`, angles in radians arising from degree
inputs carry `q = 0`). -/
structure RVal where
  q : ℚ
  d : ℚ
deriving DecidableEq

/-- Length (meters) as an `RVal`. -/
def rvq (x : ℚ) : RVal := ⟨x, 0⟩

/-- Angle given in degrees, stored as radians (`x * pi / 180`). -/
def rvd (x : ℚ) : RVal := ⟨0, x⟩

/-- Subtraction of exact values. -/
def RVal.sub (a b : RVal) : RVal := ⟨a.q - b.q, a.d - b.d⟩

/-- A 3-component position of exact values (geographic positions carry
latitude/longitude in radians and altitude in meters; relative positions
carry meters in all three components). -/
structure GVec3 where
  x : RVal
  y : RVal
  z : RVal
deriving DecidableEq

/-- RGBA color (the default-constructed value is the "unset" sentinel;
its exact RGBA content is irrelevant to every claim). -/
structure GColor where
  r : ℕ
  g : ℕ
  b : ℕ
  a : ℕ
deriving DecidableEq

/-- Sentinel color returned by color accessors for unset color fields. -/
def defColor : GColor := ⟨255, 0, 0, 255⟩

/-- Modelled from the spec: the concrete shape kinds. -/
inductive ShapeKind
  | circle | sphere | hemisphere | ellipsoid | arc | ellipse | cylinder
  | cone | orbit | line | lineSegs | polygon | points | anno
deriving DecidableEq

/-- Altitude mode enumeration. -/
inductive AltMode
  | modeNone | clampToGround | relativeToGround | extrude
deriving DecidableEq

/-- Line style enumeration. -/
inductive LineStyle
  | solid | dashed
deriving DecidableEq

/-- Tessellation style enumeration. -/
inductive Tess
  | tessNone | greatCircle | rhumbline
deriving DecidableEq

/-- Text outline thickness enumeration. -/
inductive OutlineTh
  | thNone | thin | thick
deriving DecidableEq

/-- Range-family units (default yards). -/
inductive RUnit
  | yards | meters | kilometers | feet
deriving DecidableEq

/-- Meters per one range unit. -/
def RUnit.toM : RUnit → ℚ
  | .yards => 1143 / 1250
  | .meters => 1
  | .kilometers => 1000
  | .feet => 381 / 1250

/-- Altitude-family units (default feet). -/
inductive AUnit
  | feet | meters | kilofeet
deriving DecidableEq

/-- Meters per one altitude unit. -/
def AUnit.toM : AUnit → ℚ
  | .feet => 381 / 1250
  | .meters => 1
  | .kilofeet => 1524 / 5

/-- Angle-family units (default degrees). -/
inductive AngUnit
  | degrees | radians
deriving DecidableEq

/-- The three independently configurable unit families of a block. -/
structure UnitsSt where
  range : RUnit
  alt : AUnit
  ang : AngUnit
deriving DecidableEq

/-- Unit configuration in force at the opening of every block. -/
def defUnits : UnitsSt := ⟨.yards, .feet, .degrees⟩

/-- A raw (not yet unit-converted) position from the source text. -/
inductive RawPos
  | lla (lat lon alt : ℚ)
  | xyz (x y z : ℚ)
deriving DecidableEq

/-- Abstract form of one meaningful source line, produced by the line
normalizer: keyword plus already-tokenized arguments. -/
inductive ALine
  | start
  | endB
  | shapeKw (k : ShapeKind)
  | annoKw (text : String)
  | centerLLA (lat lon alt : ℚ)
  | centerXYZ (x y z : ℚ)
  | centerLL2 (lat lon : ℚ)
  | centerXY2 (x y : ℚ)
  | posLLA (lat lon alt : ℚ)
  | posXYZ (x y z : ℚ)
  | refPt (lat lon alt : ℚ)
  | rangeU (u : RUnit)
  | altU (u : AUnit)
  | angU (u : AngUnit)
  | radiusKw (v : ℚ)
  | heightKw (v : ℚ)
  | angleStartKw (v : ℚ)
  | angleDegKw (v : ℚ)
  | angleEndKw (v : ℚ)
  | majorKw (v : ℚ)
  | minorKw (v : ℚ)
  | outlineKw (b : Bool)
  | lineWidthKw (v : ℚ)
  | lineColorKw (c : GColor)
  | lineStyleKw (s : LineStyle)
  | filledKw (b : Bool)
  | fillColorKw (c : GColor)
  | tessellateKw (b : Bool)
  | lineProjKw (t : Tess)
  | pointSizeKw (v : ℚ)
  | nameKw (s : String)
  | drawKw (b : Bool)
  | depthBufferKw (b : Bool)
  | altOffsetKw (v : ℚ)
  | altModeKw (m : AltMode)
  | scaleKw (x y z : ℚ)
  | followKw (fy fp fr : Bool)
  | yawOffKw (v : ℚ)
  | pitchOffKw (v : ℚ)
  | rollOffKw (v : ℚ)
  | fontNameKw (s : String)
  | fontSizeKw (v : ℚ)
  | outlineColorKw (c : GColor)
  | outlineThKw (t : OutlineTh)
  | iconKw (s : String)
  | unknownKw
deriving DecidableEq

/-- In-progress (per-open-block) attribute context: raw field values as
read from the source, converted to canonical units only at block close. -/
structure Cur where
  name : Option String := none
  draw : Option Bool := none
  depthBuffer : Option Bool := none
  altOffsetRaw : Option ℚ := none
  altMode : Option AltMode := none
  refPtRaw : Option (ℚ × ℚ × ℚ) := none
  scale : Option (ℚ × ℚ × ℚ) := none
  followYaw : Option Bool := none
  followPitch : Option Bool := none
  followRoll : Option Bool := none
  yawOffRaw : Option ℚ := none
  pitchOffRaw : Option ℚ := none
  rollOffRaw : Option ℚ := none
  outline : Option Bool := none
  lineWidthRaw : Option ℚ := none
  lineStyle : Option LineStyle := none
  lineColor : Option GColor := none
  filled : Option Bool := none
  fillColor : Option GColor := none
  centerRaw : Option RawPos := none
  center2Raw : Option RawPos := none
  radiusRaw : Option ℚ := none
  heightRaw : Option ℚ := none
  angleStartRaw : Option ℚ := none
  sweepRaw : Option ℚ := none
  angleEndRaw : Option ℚ := none
  majorRaw : Option ℚ := none
  minorRaw : Option ℚ := none
  pointsRaw : List RawPos := []
  tessFlag : Option Bool := none
  lineProj : Option Tess := none
  pointSizeRaw : Option ℚ := none
  annos : List (String × Option RawPos) := []
  fontName : Option String := none
  fontSizeRaw : Option ℚ := none
  textColor : Option GColor := none
  outlineColor : Option GColor := none
  outlineTh : Option OutlineTh := none
  iconFile : Option String := none
deriving DecidableEq

/-- Fresh attribute context opened at each `start`. -/
def emptyCur : Cur := {}

/-- A finalized, immutable shape object, with explicit/default
provenance for each optional field (`none` = never explicitly set). -/
structure Shape where
  kind : ShapeKind
  name : Option String := none
  draw : Option Bool := none
  depthBuffer : Option Bool := none
  altitudeOffset : Option RVal := none
  altitudeMode : Option AltMode := none
  referencePosition : Option GVec3 := none
  scale : Option (ℚ × ℚ × ℚ) := none
  followYaw : Option Bool := none
  followPitch : Option Bool := none
  followRoll : Option Bool := none
  yawOffset : Option RVal := none
  pitchOffset : Option RVal := none
  rollOffset : Option RVal := none
  outlined : Option Bool := none
  lineWidth : Option ℚ := none
  lineStyle : Option LineStyle := none
  lineColor : Option GColor := none
  filled : Option Bool := none
  fillColor : Option GColor := none
  center : Option GVec3 := none
  center2 : Option GVec3 := none
  radius : Option RVal := none
  height : Option RVal := none
  angleStart : Option RVal := none
  angleSweep : Option RVal := none
  majorAxis : Option RVal := none
  minorAxis : Option RVal := none
  points : List GVec3 := []
  tessellation : Option Tess := none
  pointSize : Option ℚ := none
  pointColor : Option GColor := none
  text : Option String := none
  position : Option GVec3 := none
  fontName : Option String := none
  textSize : Option ℚ := none
  textColor : Option GColor := none
  outlineColor : Option GColor := none
  outlineTh : Option OutlineTh := none
  iconFile : Option String := none
deriving DecidableEq

/-- Shared accessor scheme of every optional field: status 0 with the
stored value when the field was explicitly present in the source, status
1 with the supplied default otherwise. -/
def getOptS {α : Type} (o : Option α) (dflt : α) : ℕ × α :=
  match o with
  | some v => (0, v)
  | none => (1, dflt)

/-- First explicit setting wins (used for the attributes shared by the
sibling annotations of one block). -/
def setIfNone {α : Type} (o : Option α) (v : α) : Option α :=
  match o with
  | none => some v
  | some w => some w

/-- Attach a position to the most recently begun annotation of the block. -/
def setLastPos (p : RawPos) : List (String × Option RawPos) → List (String × Option RawPos)
  | [] => []
  | [(t, _)] => [(t, some p)]
  | x :: y :: xs => x :: setLastPos p (y :: xs)

/-- Mathematical nonnegative remainder modulo 360, the composite of the
spec formula `((x mod 360) + 360) mod 360`. -/
def posMod360 (x : ℚ) : ℚ := x - 360 * (⌊x / 360⌋ : ℚ)

/-- Lower rational bound of pi (used only to choose the integer number of
turns subtracted when reducing a value carrying a pure-radian component;
for values arising from degree inputs the reduction is exact). -/
def piLoQ : ℚ := 314159265358979323846 / 100000000000000000000

/-- Upper rational bound of pi. -/
def piHiQ : ℚ := 314159265358979323847 / 100000000000000000000

/-- Number of whole `2 * pi` turns contained in `q + d * pi / 180`. -/
def turnsOf (q d : ℚ) : ℤ :=
  if q = 0 then ⌊d / 360⌋
  else if 0 ≤ q then ⌊q / (2 * piHiQ) + d / 360⌋
  else ⌊q / (2 * piLoQ) + d / 360⌋

/-- Reduce an angle modulo `2 * pi` into `[0, 2 * pi)`; on values coming
from degree inputs (`q = 0`) this is exactly the spec formula
`((x mod 360) + 360) mod 360` performed in degrees. -/
def radMod2Pi (v : RVal) : RVal :=
  ⟨v.q, v.d - 360 * ((turnsOf v.q v.d : ℤ) : ℚ)⟩

/-- Convert a raw range-family value to meters with the block's units. -/
def convRange (u : UnitsSt) (v : ℚ) : RVal := rvq (v * u.range.toM)

/-- Convert a raw altitude-family value to meters with the block's units. -/
def convAlt (u : UnitsSt) (v : ℚ) : RVal := rvq (v * u.alt.toM)

/-- Convert a raw angle-family value to radians with the block's units. -/
def convAng (u : UnitsSt) (v : ℚ) : RVal :=
  match u.ang with
  | .degrees => rvd v
  | .radians => rvq v

/-- Convert a raw position: geographic latitude/longitude are always
degrees-to-radians, altitudes use the altitude family, relative x/y the
range family. -/
def convPos (u : UnitsSt) : RawPos → GVec3
  | .lla la lo al => ⟨rvd la, rvd lo, convAlt u al⟩
  | .xyz x y z => ⟨convRange u x, convRange u y, convAlt u z⟩

/-- Record one recognized field line in the open block's context.  The
first argument is the block's bound shape type when one is known:
annotation blocks route position lines to the current sibling annotation
and treat the shared text attributes as first-set-wins. -/
def fieldStep (k : Option ShapeKind) (s : Cur × UnitsSt) (l : ALine) : Cur × UnitsSt :=
  let c := s.1
  let u := s.2
  match l with
  | .rangeU r => (c, { u with range := r })
  | .altU a => (c, { u with alt := a })
  | .angU a => (c, { u with ang := a })
  | .centerLLA la lo al =>
      if k = some ShapeKind.anno then ({ c with annos := setLastPos (RawPos.lla la lo al) c.annos }, u)
      else ({ c with centerRaw := some (RawPos.lla la lo al) }, u)
  | .centerXYZ x y z =>
      if k = some ShapeKind.anno then ({ c with annos := setLastPos (RawPos.xyz x y z) c.annos }, u)
      else ({ c with centerRaw := some (RawPos.xyz x y z) }, u)
  | .centerLL2 la lo => ({ c with center2Raw := some (RawPos.lla la lo 0) }, u)
  | .centerXY2 x y => ({ c with center2Raw := some (RawPos.xyz x y 0) }, u)
  | .posLLA la lo al =>
      if k = some ShapeKind.anno then ({ c with annos := setLastPos (RawPos.lla la lo al) c.annos }, u)
      else ({ c with pointsRaw := c.pointsRaw ++ [RawPos.lla la lo al] }, u)
  | .posXYZ x y z =>
      if k = some ShapeKind.anno then ({ c with annos := setLastPos (RawPos.xyz x y z) c.annos }, u)
      else ({ c with pointsRaw := c.pointsRaw ++ [RawPos.xyz x y z] }, u)
  | .refPt la lo al => ({ c with refPtRaw := some (la, lo, al) }, u)
  | .radiusKw v => ({ c with radiusRaw := some v }, u)
  | .heightKw v => ({ c with heightRaw := some v }, u)
  | .angleStartKw v => ({ c with angleStartRaw := some v }, u)
  | .angleDegKw v => ({ c with sweepRaw := some v }, u)
  | .angleEndKw v => ({ c with angleEndRaw := some v }, u)
  | .majorKw v => ({ c with majorRaw := some v }, u)
  | .minorKw v => ({ c with minorRaw := some v }, u)
  | .outlineKw b => ({ c with outline := some b }, u)
  | .lineWidthKw v => ({ c with lineWidthRaw := some v }, u)
  | .lineColorKw col =>
      if k = some ShapeKind.anno then ({ c with textColor := setIfNone c.textColor col }, u)
      else ({ c with lineColor := some col }, u)
  | .lineStyleKw st => ({ c with lineStyle := some st }, u)
  | .filledKw b => ({ c with filled := some b }, u)
  | .fillColorKw col => ({ c with fillColor := some col }, u)
  | .tessellateKw b => ({ c with tessFlag := some b }, u)
  | .lineProjKw t => ({ c with lineProj := some t }, u)
  | .pointSizeKw v => ({ c with pointSizeRaw := some v }, u)
  | .nameKw s' => ({ c with name := some s' }, u)
  | .drawKw b => ({ c with draw := some b }, u)
  | .depthBufferKw b => ({ c with depthBuffer := some b }, u)
  | .altOffsetKw v => ({ c with altOffsetRaw := some v }, u)
  | .altModeKw m => ({ c with altMode := some m }, u)
  | .scaleKw x y z => ({ c with scale := some (x, y, z) }, u)
  | .followKw fy fp fr =>
      ({ c with followYaw := if fy then some true else c.followYaw,
                followPitch := if fp then some true else c.followPitch,
                followRoll := if fr then some true else c.followRoll }, u)
  | .yawOffKw v => ({ c with yawOffRaw := some v }, u)
  | .pitchOffKw v => ({ c with pitchOffRaw := some v }, u)
  | .rollOffKw v => ({ c with rollOffRaw := some v }, u)
  | .fontNameKw s' =>
      if k = some ShapeKind.anno then ({ c with fontName := setIfNone c.fontName s' }, u)
      else ({ c with fontName := some s' }, u)
  | .fontSizeKw v =>
      if k = some ShapeKind.anno then ({ c with fontSizeRaw := setIfNone c.fontSizeRaw v }, u)
      else ({ c with fontSizeRaw := some v }, u)
  | .outlineColorKw col =>
      if k = some ShapeKind.anno then ({ c with outlineColor := setIfNone c.outlineColor col }, u)
      else ({ c with outlineColor := some col }, u)
  | .outlineThKw t =>
      if k = some ShapeKind.anno then ({ c with outlineTh := setIfNone c.outlineTh t }, u)
      else ({ c with outlineTh := some t }, u)
  | .iconKw s' =>
      if k = some ShapeKind.anno then ({ c with iconFile := setIfNone c.iconFile s' }, u)
      else ({ c with iconFile := some s' }, u)
  | .unknownKw => (c, u)
  | .start => (c, u)
  | .endB => (c, u)
  | .shapeKw _ => (c, u)
  | .annoKw _ => (c, u)

/-- The base attribute set shared by all shapes, unit-converted with the
block's final unit configuration. -/
def baseShape (k : ShapeKind) (c : Cur) (u : UnitsSt) : Shape :=
  { kind := k
    name := c.name
    draw := c.draw
    depthBuffer := c.depthBuffer
    altitudeOffset := c.altOffsetRaw.map (fun v => convAlt u v)
    altitudeMode := c.altMode
    referencePosition := c.refPtRaw.map (fun t => ⟨rvd t.1, rvd t.2.1, convAlt u t.2.2⟩)
    scale := c.scale
    followYaw := c.followYaw
    followPitch := c.followPitch
    followRoll := c.followRoll
    yawOffset := c.yawOffRaw.map (fun v => convAng u v)
    pitchOffset := c.pitchOffRaw.map (fun v => convAng u v)
    rollOffset := c.rollOffRaw.map (fun v => convAng u v) }

/-- Add the fillable-layer fields. -/
def addFill (c : Cur) (s : Shape) : Shape :=
  { s with
    outlined := c.outline
    lineWidth := c.lineWidthRaw
    lineStyle := c.lineStyle
    lineColor := c.lineColor
    filled := c.filled
    fillColor := c.fillColor }

/-- Add the circular-layer fields. -/
def addCirc (c : Cur) (u : UnitsSt) (ctr : RawPos) (s : Shape) : Shape :=
  { s with
    center := some (convPos u ctr)
    radius := c.radiusRaw.map (fun v => convRange u v) }

/-- Add the height field. -/
def addH (c : Cur) (u : UnitsSt) (s : Shape) : Shape :=
  { s with height := c.heightRaw.map (fun v => convAlt u v) }

/-- The sweep of an elliptical shape: an explicit sweep if one was given,
otherwise computed from the end angle by the reduce-to-one-turn formula. -/
def sweepOf (c : Cur) (u : UnitsSt) : Option RVal :=
  match c.sweepRaw with
  | some v => some (convAng u v)
  | none =>
      c.angleEndRaw.map
        (fun e => radMod2Pi (RVal.sub (convAng u e) (convAng u (c.angleStartRaw.getD 0))))

/-- Add the elliptical-layer fields. -/
def addEll (c : Cur) (u : UnitsSt) (s : Shape) : Shape :=
  { s with
    angleStart := c.angleStartRaw.map (fun v => convAng u v)
    angleSweep := sweepOf c u
    majorAxis := c.majorRaw.map (fun v => convRange u v)
    minorAxis := c.minorRaw.map (fun v => convRange u v) }

/-- Add the major/minor axis fields alone (Ellipsoid carries axes but no
angle fields). -/
def addAxes (c : Cur) (u : UnitsSt) (s : Shape) : Shape :=
  { s with
    majorAxis := c.majorRaw.map (fun v => convRange u v)
    minorAxis := c.minorRaw.map (fun v => convRange u v) }

/-- Add the point-based-layer fields. -/
def addPts (c : Cur) (u : UnitsSt) (s : Shape) : Shape :=
  { s with
    points := c.pointsRaw.map (convPos u)
    tessellation :=
      match c.tessFlag with
      | none => none
      | some false => some Tess.tessNone
      | some true =>
          some (if c.lineProj = some Tess.greatCircle then Tess.greatCircle else Tess.rhumbline) }

/-- One finalized sibling annotation of an annotation block. -/
def annoShape (c : Cur) (u : UnitsSt) (t : String) (p : RawPos) : Shape :=
  { baseShape ShapeKind.anno c u with
    text := some t
    position := some (convPos u p)
    fontName := c.fontName
    textSize := c.fontSizeRaw
    textColor := c.textColor
    outlineColor := c.outlineColor
    outlineTh := c.outlineTh
    iconFile := c.iconFile }

/-- Validate the block's required fields and build its output shapes;
an invalid block yields the empty list. -/
def finalizeShapes (k : ShapeKind) (c : Cur) (u : UnitsSt) : List Shape :=
  match k with
  | .circle | .sphere | .hemisphere =>
      match c.centerRaw with
      | some p => [addCirc c u p (addFill c (baseShape k c u))]
      | none => []
  | .orbit =>
      match c.centerRaw, c.center2Raw with
      | some p1, some p2 =>
          [{ addCirc c u p1 (addFill c (baseShape k c u)) with center2 := some (convPos u p2) }]
      | _, _ => []
  | .cone =>
      match c.centerRaw with
      | some p => [addH c u (addCirc c u p (addFill c (baseShape k c u)))]
      | none => []
  | .ellipsoid =>
      match c.centerRaw with
      | some p => [addAxes c u (addH c u (addCirc c u p (addFill c (baseShape k c u))))]
      | none => []
  | .arc | .ellipse =>
      match c.centerRaw with
      | some p => [addEll c u (addCirc c u p (addFill c (baseShape k c u)))]
      | none => []
  | .cylinder =>
      match c.centerRaw with
      | some p => [addH c u (addEll c u (addCirc c u p (addFill c (baseShape k c u))))]
      | none => []
  | .line | .lineSegs =>
      if 2 ≤ c.pointsRaw.length then [addPts c u (addFill c (baseShape k c u))] else []
  | .polygon =>
      if 3 ≤ c.pointsRaw.length then [addPts c u (addFill c (baseShape k c u))] else []
  | .points =>
      if 1 ≤ c.pointsRaw.length then
        [{ baseShape k c u with
           outlined := c.outline
           points := c.pointsRaw.map (convPos u)
           pointSize := c.pointSizeRaw
           pointColor := c.lineColor }]
      else []
  | .anno =>
      c.annos.filterMap
        (fun a =>
          match a.2 with
          | some p => if a.1 = "" then none else some (annoShape c u a.1 p)
          | none => none)

/-- The block stack machine's state: outside any block, inside an untyped
block, inside a block bound to one shape type, or inside a block whose
type assignment became ambiguous (discarded at its `end`). -/
inductive Core
  | outside
  | openU (c : Cur) (u : UnitsSt)
  | openT (k : ShapeKind) (c : Cur) (u : UnitsSt)
  | openBad
deriving DecidableEq

/-- One transition of the block stack machine: next state plus the shapes
emitted by this line (non-empty only on a finalizing `end`). -/
def stepCore (st : Core) (l : ALine) : Core × List Shape :=
  match st with
  | .outside =>
      match l with
      | .start => (.openU emptyCur defUnits, [])
      | _ => (.outside, [])
  | .openU c u =>
      match l with
      | .start => (.openU emptyCur defUnits, [])
      | .endB => (.outside, [])
      | .shapeKw k =>
          if k = ShapeKind.anno then (.openT ShapeKind.anno { c with annos := [("", none)] } u, [])
          else (.openT k c u, [])
      | .annoKw t => (.openT ShapeKind.anno { c with annos := [(t, none)] } u, [])
      | _ =>
          let s' := fieldStep none (c, u) l
          (.openU s'.1 s'.2, [])
  | .openT k c u =>
      match l with
      | .start => (.openU emptyCur defUnits, [])
      | .endB => (.outside, finalizeShapes k c u)
      | .shapeKw k' =>
          if k = ShapeKind.anno ∧ k' = ShapeKind.anno then
            (.openT ShapeKind.anno { c with annos := c.annos ++ [("", none)] } u, [])
          else (.openBad, [])
      | .annoKw t =>
          if k = ShapeKind.anno then
            (.openT ShapeKind.anno { c with annos := c.annos ++ [(t, none)] } u, [])
          else (.openBad, [])
      | _ =>
          let s' := fieldStep (some k) (c, u) l
          (.openT k s'.1 s'.2, [])
  | .openBad =>
      match l with
      | .start => (.openU emptyCur defUnits, [])
      | .endB => (.outside, [])
      | _ => (.openBad, [])

/-- Run the stack machine over a line sequence, collecting emitted shapes
in source order. -/
def runCore (st : Core) : List ALine → Core × List Shape
  | [] => (st, [])
  | l :: ls =>
      let p := stepCore st l
      let r := runCore p.1 ls
      (r.1, p.2 ++ r.2)

/-- Parse an abstract line sequence into the ordered shape list. -/
def gogParse (ls : List ALine) : List Shape := (runCore Core.outside ls).2

/-- Fallback reference position (BSTUR), latitude/longitude in radians. -/
def bsturPos : GVec3 := ⟨rvd (221194392 / 10000000), rvd (-1599194988 / 10000000), rvq 0⟩

/-- Accessor: display name. -/
def Shape.getName (s : Shape) : ℕ × String := getOptS s.name ""

/-- Accessor: drawn flag, default true. -/
def Shape.getIsDrawn (s : Shape) : ℕ × Bool := getOptS s.draw true

/-- Accessor: depth-buffer-active flag, default false. -/
def Shape.getIsDepthBufferActive (s : Shape) : ℕ × Bool := getOptS s.depthBuffer false

/-- Accessor: altitude offset in meters, default 0. -/
def Shape.getAltitudeOffset (s : Shape) : ℕ × RVal := getOptS s.altitudeOffset (rvq 0)

/-- Accessor: altitude mode, default NONE. -/
def Shape.getAltitudeMode (s : Shape) : ℕ × AltMode := getOptS s.altitudeMode AltMode.modeNone

/-- Accessor: reference position, default the BSTUR fallback location. -/
def Shape.getReferencePosition (s : Shape) : ℕ × GVec3 := getOptS s.referencePosition bsturPos

/-- Accessor: scale, default (1,1,1). -/
def Shape.getScale (s : Shape) : ℕ × (ℚ × ℚ × ℚ) := getOptS s.scale (1, 1, 1)

/-- Accessor: follow-yaw flag, default false. -/
def Shape.getIsFollowingYaw (s : Shape) : ℕ × Bool := getOptS s.followYaw false

/-- Accessor: follow-pitch flag, default false. -/
def Shape.getIsFollowingPitch (s : Shape) : ℕ × Bool := getOptS s.followPitch false

/-- Accessor: follow-roll flag, default false. -/
def Shape.getIsFollowingRoll (s : Shape) : ℕ × Bool := getOptS s.followRoll false

/-- Accessor: yaw offset, default 0. -/
def Shape.getYawOffset (s : Shape) : ℕ × RVal := getOptS s.yawOffset (rvq 0)

/-- Accessor: pitch offset, default 0. -/
def Shape.getPitchOffset (s : Shape) : ℕ × RVal := getOptS s.pitchOffset (rvq 0)

/-- Accessor: roll offset, default 0. -/
def Shape.getRollOffset (s : Shape) : ℕ × RVal := getOptS s.rollOffset (rvq 0)

/-- Accessor: outline flag, default true. -/
def Shape.getIsOutlined (s : Shape) : ℕ × Bool := getOptS s.outlined true

/-- Accessor: line width, default 1. -/
def Shape.getLineWidth (s : Shape) : ℕ × ℚ := getOptS s.lineWidth 1

/-- Accessor: line style, default SOLID. -/
def Shape.getLineStyle (s : Shape) : ℕ × LineStyle := getOptS s.lineStyle LineStyle.solid

/-- Accessor: line color, default the unset sentinel. -/
def Shape.getLineColor (s : Shape) : ℕ × GColor := getOptS s.lineColor defColor

/-- Accessor: filled flag, default false. -/
def Shape.getIsFilled (s : Shape) : ℕ × Bool := getOptS s.filled false

/-- Accessor: fill color, default the unset sentinel. -/
def Shape.getFillColor (s : Shape) : ℕ × GColor := getOptS s.fillColor defColor

/-- Accessor: radius in meters, default 500. -/
def Shape.getRadius (s : Shape) : ℕ × RVal := getOptS s.radius (rvq 500)

/-- Accessor: height in meters, default 500. -/
def Shape.getHeight (s : Shape) : ℕ × RVal := getOptS s.height (rvq 500)

/-- Accessor: start angle in radians, default 0. -/
def Shape.getAngleStart (s : Shape) : ℕ × RVal := getOptS s.angleStart (rvq 0)

/-- Accessor: sweep angle in radians, default 0. -/
def Shape.getAngleSweep (s : Shape) : ℕ × RVal := getOptS s.angleSweep (rvq 0)

/-- Accessor: major axis in meters; the default is 1000 for Ellipsoid and
0 for the Elliptical shapes, by design of the shape family. -/
def Shape.getMajorAxis (s : Shape) : ℕ × RVal :=
  getOptS s.majorAxis (if s.kind = ShapeKind.ellipsoid then rvq 1000 else rvq 0)

/-- Accessor: minor axis in meters; default 1000 for Ellipsoid, else 0. -/
def Shape.getMinorAxis (s : Shape) : ℕ × RVal :=
  getOptS s.minorAxis (if s.kind = ShapeKind.ellipsoid then rvq 1000 else rvq 0)

/-- Accessor: tessellation style, default NONE. -/
def Shape.getTessellation (s : Shape) : ℕ × Tess := getOptS s.tessellation Tess.tessNone

/-- Accessor: point size, default 1. -/
def Shape.getPointSize (s : Shape) : ℕ × ℚ := getOptS s.pointSize 1

/-- Accessor: point color, default the unset sentinel. -/
def Shape.getColor (s : Shape) : ℕ × GColor := getOptS s.pointColor defColor

/-- Accessor: font name, default unset (empty). -/
def Shape.getFontName (s : Shape) : ℕ × String := getOptS s.fontName ""

/-- Accessor: text size, default 15. -/
def Shape.getTextSize (s : Shape) : ℕ × ℚ := getOptS s.textSize 15

/-- Accessor: text color, default the unset sentinel. -/
def Shape.getTextColor (s : Shape) : ℕ × GColor := getOptS s.textColor defColor

/-- Accessor: text outline color, default the unset sentinel. -/
def Shape.getOutlineColor (s : Shape) : ℕ × GColor := getOptS s.outlineColor defColor

/-- Accessor: text outline thickness, default NONE. -/
def Shape.getOutlineThickness (s : Shape) : ℕ × OutlineTh := getOptS s.outlineTh OutlineTh.thNone

/-- Accessor: icon file, default the empty string. -/
def Shape.getIconFile (s : Shape) : ℕ × String := getOptS s.iconFile ""

/-- Configured comment character (default). -/
def commentCh : Char := '#'

/-- Whitespace test used by the line normalizer. -/
def isWsC (c : Char) : Bool := c = ' ' || c = '\t' || c = '\r' || c = '\n'

/-- Strip everything from the comment character to end of line. -/
def stripComment (cc : Char) (cs : List Char) : List Char :=
  cs.takeWhile (fun ch => ch ≠ cc)

/-- Split off the first whitespace-delimited token, returning it with the
remainder (leading whitespace dropped); `none` when no token remains. -/
def splitTok (cs : List Char) : Option (List Char × List Char) :=
  match cs.dropWhile isWsC with
  | [] => none
  | c :: t =>
      some ((c :: t).takeWhile (fun ch => !isWsC ch),
            ((c :: t).dropWhile (fun ch => !isWsC ch)).dropWhile isWsC)

/-- Lower-case a token for case-insensitive keyword matching. -/
def lowerS (cs : List Char) : String := String.mk (cs.map Char.toLower)

/-- Trim trailing whitespace (for verbatim text arguments). -/
def trimR (cs : List Char) : List Char := (cs.reverse.dropWhile isWsC).reverse

/-- Value of a decimal digit character. -/
def digVal (c : Char) : ℕ := c.toNat - 48

/-- Accumulate decimal digits into a natural number. -/
def digitsToNat : List Char → ℕ → ℕ
  | [], acc => acc
  | c :: cs, acc => digitsToNat cs (acc * 10 + digVal c)

/-- Parse a decimal rational such as `-305.`, `25.1` or `100`. -/
def parseRatCs (cs : List Char) : ℚ :=
  let sgn : ℚ := match cs with | '-' :: _ => -1 | _ => 1
  let cs1 := match cs with | '-' :: t => t | '+' :: t => t | _ => cs
  let ip := cs1.takeWhile Char.isDigit
  let rest := cs1.dropWhile Char.isDigit
  let fp := match rest with | '.' :: t => t.takeWhile Char.isDigit | _ => []
  sgn * ((digitsToNat ip 0 : ℚ) + (digitsToNat fp 0 : ℚ) / (10 ^ fp.length))

/-- Value of a hexadecimal digit character. -/
def hexVal (c : Char) : ℕ :=
  if c.isDigit then c.toNat - 48 else (c.toLower.toNat - 97) + 10

/-- Accumulate hexadecimal digits into a natural number. -/
def hexToNat : List Char → ℕ → ℕ
  | [], acc => acc
  | c :: cs, acc => hexToNat cs (acc * 16 + hexVal c)

/-- Decode a 0xAABBGGRR word into an RGBA color. -/
def colorFromNum (n : ℕ) : GColor :=
  ⟨n % 256, n / 256 % 256, n / 65536 % 256, n / 16777216 % 256⟩

/-- Named GOG colors (the palette entries exercised by the test suite). -/
def namedColor (s : String) : GColor :=
  if s = "green" then ⟨0, 255, 0, 255⟩
  else if s = "yellow" then ⟨255, 255, 0, 255⟩
  else if s = "magenta" then ⟨192, 0, 192, 255⟩
  else if s = "blue" then ⟨0, 0, 255, 255⟩
  else if s = "cyan" then ⟨0, 255, 255, 255⟩
  else if s = "white" then ⟨255, 255, 255, 255⟩
  else if s = "black" then ⟨0, 0, 0, 255⟩
  else if s = "red" then ⟨255, 0, 0, 255⟩
  else defColor

/-- Parse a color argument: either `hex 0x...` or a named color. -/
def colorArg (rest : List Char) : GColor :=
  match splitTok rest with
  | none => defColor
  | some (t1, r1) =>
      if lowerS t1 = "hex" then
        match splitTok r1 with
        | some (t2, _) =>
            let ds := match t2 with | '0' :: 'x' :: t => t | _ => t2
            colorFromNum (hexToNat ds 0)
        | none => defColor
      else namedColor (lowerS t1)

/-- Parse a boolean token. -/
def boolArg (rest : List Char) : Bool :=
  match splitTok rest with
  | some (t1, _) => lowerS t1 = "true" || lowerS t1 = "1" || lowerS t1 = "on" || lowerS t1 = "yes"
  | none => false

/-- Parse one numeric argument (0 when absent). -/
def oneRat (rest : List Char) : ℚ :=
  match splitTok rest with
  | some (t1, _) => parseRatCs t1
  | none => 0

/-- Parse two numeric arguments. -/
def twoRats (rest : List Char) : ℚ × ℚ :=
  match splitTok rest with
  | some (t1, r1) => (parseRatCs t1, oneRat r1)
  | none => (0, 0)

/-- Parse three numeric arguments (third defaults to 0 when absent). -/
def threeRats (rest : List Char) : ℚ × ℚ × ℚ :=
  match splitTok rest with
  | some (t1, r1) =>
      (match splitTok r1 with
       | some (t2, r2) => (parseRatCs t1, parseRatCs t2, oneRat r2)
       | none => (parseRatCs t1, 0, 0))
  | none => (0, 0, 0)

/-- First token of the argument text as a string. -/
def tokArg (rest : List Char) : String :=
  match splitTok rest with
  | some (t1, _) => String.mk t1
  | none => ""

/-- Map a recognized keyword (already lower-cased) plus raw argument text
to an abstract line. -/
def classify (kw : String) (rest : List Char) : ALine :=
  if kw = "start" then ALine.start
  else if kw = "end" then ALine.endB
  else if kw = "circle" then ALine.shapeKw ShapeKind.circle
  else if kw = "sphere" then ALine.shapeKw ShapeKind.sphere
  else if kw = "hemisphere" then ALine.shapeKw ShapeKind.hemisphere
  else if kw = "ellipsoid" then ALine.shapeKw ShapeKind.ellipsoid
  else if kw = "arc" then ALine.shapeKw ShapeKind.arc
  else if kw = "ellipse" then ALine.shapeKw ShapeKind.ellipse
  else if kw = "cylinder" then ALine.shapeKw ShapeKind.cylinder
  else if kw = "cone" then ALine.shapeKw ShapeKind.cone
  else if kw = "orbit" then ALine.shapeKw ShapeKind.orbit
  else if kw = "line" then ALine.shapeKw ShapeKind.line
  else if kw = "linesegs" then ALine.shapeKw ShapeKind.lineSegs
  else if kw = "poly" || kw = "polygon" then ALine.shapeKw ShapeKind.polygon
  else if kw = "points" then ALine.shapeKw ShapeKind.points
  else if kw = "annotation" then ALine.annoKw (String.mk (trimR rest))
  else if kw = "centerll" || kw = "centerlla" || kw = "centerlatlon" then
    (let t := threeRats rest; ALine.centerLLA t.1 t.2.1 t.2.2)
  else if kw = "centerxyz" || kw = "centerxy" then
    (let t := threeRats rest; ALine.centerXYZ t.1 t.2.1 t.2.2)
  else if kw = "centerll2" then (let t := twoRats rest; ALine.centerLL2 t.1 t.2)
  else if kw = "centerxy2" then (let t := twoRats rest; ALine.centerXY2 t.1 t.2)
  else if kw = "ll" || kw = "lla" || kw = "latlon" then
    (let t := threeRats rest; ALine.posLLA t.1 t.2.1 t.2.2)
  else if kw = "xyz" || kw = "xy" then
    (let t := threeRats rest; ALine.posXYZ t.1 t.2.1 t.2.2)
  else if kw = "referencepoint" || kw = "ref" then
    (let t := threeRats rest; ALine.refPt t.1 t.2.1 t.2.2)
  else if kw = "rangeunits" then
    (let a := tokArg rest
     if a = "m" || a = "meters" then ALine.rangeU RUnit.meters
     else if a = "km" then ALine.rangeU RUnit.kilometers
     else if a = "yd" || a = "yds" || a = "yards" then ALine.rangeU RUnit.yards
     else if a = "f" || a = "ft" || a = "feet" then ALine.rangeU RUnit.feet
     else ALine.unknownKw)
  else if kw = "altitudeunits" then
    (let a := tokArg rest
     if a = "m" || a = "meters" then ALine.altU AUnit.meters
     else if a = "f" || a = "ft" || a = "feet" then ALine.altU AUnit.feet
     else if a = "kf" then ALine.altU AUnit.kilofeet
     else ALine.unknownKw)
  else if kw = "angleunits" then
    (let a := tokArg rest
     if a = "rad" || a = "radians" then ALine.angU AngUnit.radians
     else if a = "deg" || a = "degrees" then ALine.angU AngUnit.degrees
     else ALine.unknownKw)
  else if kw = "radius" then ALine.radiusKw (oneRat rest)
  else if kw = "height" then ALine.heightKw (oneRat rest)
  else if kw = "anglestart" then ALine.angleStartKw (oneRat rest)
  else if kw = "angledeg" then ALine.angleDegKw (oneRat rest)
  else if kw = "angleend" then ALine.angleEndKw (oneRat rest)
  else if kw = "majoraxis" then ALine.majorKw (oneRat rest)
  else if kw = "minoraxis" then ALine.minorKw (oneRat rest)
  else if kw = "outline" then ALine.outlineKw (boolArg rest)
  else if kw = "linewidth" then ALine.lineWidthKw (oneRat rest)
  else if kw = "linecolor" then ALine.lineColorKw (colorArg rest)
  else if kw = "linestyle" then
    ALine.lineStyleKw (if tokArg rest = "dashed" then LineStyle.dashed else LineStyle.solid)
  else if kw = "filled" then ALine.filledKw true
  else if kw = "fillcolor" then ALine.fillColorKw (colorArg rest)
  else if kw = "tessellate" then ALine.tessellateKw (boolArg rest)
  else if kw = "lineprojection" then
    ALine.lineProjKw (if tokArg rest = "greatcircle" then Tess.greatCircle else Tess.rhumbline)
  else if kw = "pointsize" then ALine.pointSizeKw (oneRat rest)
  else if kw = "fontname" then ALine.fontNameKw (tokArg rest)
  else if kw = "fontsize" then ALine.fontSizeKw (oneRat rest)
  else if kw = "textoutlinecolor" then ALine.outlineColorKw (colorArg rest)
  else if kw = "textoutlinethickness" then
    (let a := tokArg rest
     ALine.outlineThKw (if a = "thin" then OutlineTh.thin
       else if a = "thick" then OutlineTh.thick else OutlineTh.thNone))
  else if kw = "altitudemode" then
    (let a := tokArg rest
     ALine.altModeKw (if a = "clamptoground" then AltMode.clampToGround
       else if a = "relativetoground" then AltMode.relativeToGround
       else if a = "extrude" then AltMode.extrude else AltMode.modeNone))
  else if kw = "extrude" then ALine.altModeKw AltMode.extrude
  else if kw = "scale" then (let t := threeRats rest; ALine.scaleKw t.1 t.2.1 t.2.2)
  else if kw = "off" then ALine.drawKw false
  else if kw = "depthbuffer" then ALine.depthBufferKw (boolArg rest)
  else if kw = "3d" then
    (match splitTok rest with
     | some (t1, r1) =>
         let a := lowerS t1
         if a = "name" then ALine.nameKw (String.mk (trimR r1))
         else if a = "offsetalt" then ALine.altOffsetKw (oneRat r1)
         else if a = "offsetcourse" then ALine.yawOffKw (oneRat r1)
         else if a = "offsetpitch" then ALine.pitchOffKw (oneRat r1)
         else if a = "offsetroll" then ALine.rollOffKw (oneRat r1)
         else if a = "follow" then
           (let f := tokArg r1
            ALine.followKw (f.contains 'c') (f.contains 'p') (f.contains 'r'))
         else ALine.unknownKw
     | none => ALine.unknownKw)
  else ALine.unknownKw

/-- Normalize one physical line: strip the comment, tokenize, classify.
A comment or whitespace-only line yields no abstract line, except the
special `# kml_icon <file>` comment which carries the icon file. -/
def lineToA (l : String) : Option ALine :=
  match l.data.dropWhile isWsC with
  | [] => none
  | c :: restA =>
      if c = commentCh then
        match splitTok restA with
        | some (t1, r1) =>
            if lowerS t1 = "kml_icon" then
              match splitTok r1 with
              | some (t2, _) => some (ALine.iconKw (String.mk t2))
              | none => none
            else none
        | none => none
      else
        match splitTok (stripComment commentCh l.data) with
        | none => none
        | some (kw, rest) => some (classify (lowerS kw) rest)

/-- Parse a list of physical source lines. -/
def gogParseLines (ls : List String) : List Shape := gogParse (ls.filterMap lineToA)

/-- A line whose first non-whitespace character is the comment character. -/
def isCommentLine (l : String) : Bool :=
  match l.data.dropWhile isWsC with
  | c :: _ => c = commentCh
  | [] => false

/-- A line consisting only of whitespace (or empty). -/
def isBlankLine (l : String) : Bool :=
  match l.data.dropWhile isWsC with
  | [] => true
  | _ :: _ => false

/-- A comment line carrying the special `kml_icon` directive. -/
def isKmlIconLine (l : String) : Bool :=
  match l.data.dropWhile isWsC with
  | c :: restA =>
      c = commentCh &&
        (match splitTok restA with
         | some (t1, _) => lowerS t1 = "kml_icon"
         | none => false)
  | [] => false

/-- Lines that drive the block stack machine (all others are field lines). -/
def isStructural : ALine → Bool
  | .start => true
  | .endB => true
  | .shapeKw _ => true
  | .annoKw _ => true
  | _ => false

/-- Lines that set the primary center position. -/
def isCenterSet : ALine → Bool
  | .centerLLA _ _ _ => true
  | .centerXYZ _ _ _ => true
  | _ => false

/-- Lines that set the secondary (orbit) center position. -/
def isCenter2Set : ALine → Bool
  | .centerLL2 _ _ => true
  | .centerXY2 _ _ => true
  | _ => false

/-- Lines that append a point to a point-based shape. -/
def isPosSet : ALine → Bool
  | .posLLA _ _ _ => true
  | .posXYZ _ _ _ => true
  | _ => false

/-- Any position-carrying line (can supply an annotation's position). -/
def isAnyPosSet (l : ALine) : Bool := isCenterSet l || isPosSet l

/-- Lines that set the reference position. -/
def isRefSet : ALine → Bool
  | .refPt _ _ _ => true
  | _ => false

/-- Lines that override the range-unit family. -/
def isRangeUSet : ALine → Bool
  | .rangeU _ => true
  | _ => false

/-- Lines that set the radius field. -/
def isRadiusSet : ALine → Bool
  | .radiusKw _ => true
  | _ => false

/-- Lines that set any of the three unit-family overrides. -/
def isUnitLine : ALine → Bool
  | .rangeU _ => true
  | .altU _ => true
  | .angU _ => true
  | _ => false

/-- Angle-family field lines (start angle, sweep, end angle). -/
def isAngleFieldSet : ALine → Bool
  | .angleStartKw _ => true
  | .angleDegKw _ => true
  | .angleEndKw _ => true
  | _ => false

/-- Shape kinds whose required-field rule demands a center position. -/
def needsCenter : ShapeKind → Bool
  | .circle | .sphere | .hemisphere | .ellipsoid | .cone
  | .arc | .ellipse | .cylinder | .orbit => true
  | _ => false

/-- Minimum number of positions required by the point-based kinds. -/
def minPts : ShapeKind → ℕ
  | .line | .lineSegs => 2
  | .polygon => 3
  | .points => 1
  | _ => 0

/-- The dual status/value contract of one optional-field accessor: failure
status and the documented default when never set, success status and the
stored value when explicitly set. -/
def optContract {α : Type} (field : Option α) (acc : ℕ × α) (dflt : α) : Prop :=
  (field = none → acc = (1, dflt)) ∧ ∀ v, field = some v → acc = (0, v)

/-- The full accessor contract of one finalized shape, with the
shape-type-specific defaults of the specification. -/
def accessorContract (s : Shape) : Prop :=
  optContract s.draw s.getIsDrawn true ∧
  optContract s.depthBuffer s.getIsDepthBufferActive false ∧
  optContract s.altitudeOffset s.getAltitudeOffset (rvq 0) ∧
  optContract s.altitudeMode s.getAltitudeMode AltMode.modeNone ∧
  optContract s.scale s.getScale (1, 1, 1) ∧
  optContract s.followYaw s.getIsFollowingYaw false ∧
  optContract s.followPitch s.getIsFollowingPitch false ∧
  optContract s.followRoll s.getIsFollowingRoll false ∧
  optContract s.yawOffset s.getYawOffset (rvq 0) ∧
  optContract s.pitchOffset s.getPitchOffset (rvq 0) ∧
  optContract s.rollOffset s.getRollOffset (rvq 0) ∧
  optContract s.outlined s.getIsOutlined true ∧
  optContract s.lineWidth s.getLineWidth 1 ∧
  optContract s.lineStyle s.getLineStyle LineStyle.solid ∧
  optContract s.filled s.getIsFilled false ∧
  optContract s.radius s.getRadius (rvq 500) ∧
  optContract s.height s.getHeight (rvq 500) ∧
  optContract s.angleStart s.getAngleStart (rvq 0) ∧
  optContract s.angleSweep s.getAngleSweep (rvq 0) ∧
  (s.kind = ShapeKind.ellipsoid →
    optContract s.majorAxis s.getMajorAxis (rvq 1000) ∧
    optContract s.minorAxis s.getMinorAxis (rvq 1000)) ∧
  (s.kind ≠ ShapeKind.ellipsoid →
    optContract s.majorAxis s.getMajorAxis (rvq 0) ∧
    optContract s.minorAxis s.getMinorAxis (rvq 0))

/-- Only `end` lines emit shapes. -/
def hasEndB (ls : List ALine) : Prop := ALine.endB ∈ ls

/-- Keep predicate of the amended comment claim: drop whitespace-only
lines and comment lines other than `kml_icon` directives. -/
def keepLine (l : String) : Bool :=
  !(isCommentLine l && !isKmlIconLine l) && !isBlankLine l

/-- Default shape value used only to select from concrete parse outputs. -/
def dShape : Shape := { kind := ShapeKind.circle }

/-- Minimal ellipsoid block (absolute center only). -/
def c1Lines : List ALine :=
  [ALine.start, ALine.shapeKw ShapeKind.ellipsoid,
   ALine.centerLLA (251 / 10) (291 / 5) 0, ALine.endB]

/-- The single shape parsed from `c1Lines`. -/
def c1S : Shape := (gogParse c1Lines).getD 0 dShape

/-- Text of the first demonstration annotation. -/
def sLab0 : String := "label 0"

/-- Text of the second demonstration annotation. -/
def sLab1 : String := "label 1"

/-- Text of the third demonstration annotation. -/
def sLab2 : String := "label 2"

/-- Demonstration font file name. -/
def sGeorgia : String := "georgia.ttf"

/-- A one-character annotation text. -/
def sA : String := "a"

/-- Another one-character annotation text. -/
def sB : String := "b"

/-- A block with two sibling annotations (two occurrences of the
`annotation` shape-type keyword between one `start`/`end`). -/
def c3CexLines : List ALine :=
  [ALine.start, ALine.annoKw sA, ALine.centerLLA 1 2 0,
   ALine.annoKw sB, ALine.centerLLA 3 4 0, ALine.endB]

/-- A circle block whose `radius 10` line precedes `rangeunits km`. -/
def c4CexLines : List ALine :=
  [ALine.start, ALine.shapeKw ShapeKind.circle, ALine.centerLLA 1 2 0,
   ALine.radiusKw 10, ALine.rangeU RUnit.kilometers, ALine.endB]

/-- Physical source lines of an annotation block carrying the special
`# kml_icon` comment (mirrors the test suite's full-annotation input). -/
def c8CexLines : List String :=
  [r"start", r" annotation label 1", r" centerll 24.5 54.6",
   r"# kml_icon icon.png", r" end"]

/-- The in-progress context with its angle-family raw fields cleared
(everything an Ellipsoid's finalization can observe). -/
def stripAngles (c : Cur) : Cur :=
  { c with angleStartRaw := none, sweepRaw := none, angleEndRaw := none }

/-- The lines of a run of sibling annotations: each `annotation <text>`
keyword followed by its own geographic position line. -/
def annoPairLines : List (String × ℚ × ℚ) → List ALine
  | [] => []
  | p :: ps => ALine.annoKw p.1 :: ALine.centerLLA p.2.1 p.2.2 0 :: annoPairLines ps

/-- The annotation-list entry produced by one sibling pair. -/
def annoEntryOf (p : String × ℚ × ℚ) : String × Option RawPos :=
  (p.1, some (RawPos.lla p.2.1 p.2.2 0))

/-- A two-annotation block whose second annotation re-sets the font size:
the first explicit setting must win for both siblings. -/
def c7FirstWinsLines : List ALine :=
  [ALine.start, ALine.annoKw sA, ALine.centerLLA 1 2 0, ALine.fontSizeKw 24,
   ALine.annoKw sB, ALine.centerLLA 3 4 0, ALine.fontSizeKw 30, ALine.endB]

/-- A circle block that never sets a reference position. -/
def c9Lines : List ALine :=
  [ALine.start, ALine.shapeKw ShapeKind.circle,
   ALine.centerLLA (251 / 10) (291 / 5) 12, ALine.endB]

/-- The single shape parsed from `c9Lines`. -/
def c9S : Shape := (gogParse c9Lines).getD 0 dShape

/-- A pure comment line. -/
def sCmt : String := "# a comment line"

/-- A whitespace-only line. -/
def sBlank : String := "   "

/-- The empty annotation text. -/
def sEmpty : String := ""

/-- The shape kind bound by a type-keyword line, when the line is one. -/
def typeLineKind : ALine → Option ShapeKind
  | .shapeKw k => some k
  | .annoKw _ => some ShapeKind.anno
  | _ => none

/-- The final attribute context of an annotation block whose shared
attributes were set in the first sub-block. -/
def c7Ctx (t0 f : String) (la0 lo0 fs : ℚ) (col oc : GColor) (th : OutlineTh)
    (ps : List (String × ℚ × ℚ)) : Cur :=
  { emptyCur with
    annos := ((t0, la0, lo0) :: ps).map annoEntryOf
    fontName := some f
    fontSizeRaw := some fs
    textColor := some col
    outlineColor := some oc
    outlineTh := some th }

/- ===== end of definitions; theorems follow ===== -/

/-- Running a concatenation runs the pieces in sequence. -/
theorem runCore_append (st : Core) (a b : List ALine) :
    runCore st (a ++ b) =
      ((runCore (runCore st a).1 b).1, (runCore st a).2 ++ (runCore (runCore st a).1 b).2) := by
  induction a generalizing st with
  | nil => simp [runCore]
  | cons l t ih => simp [runCore, ih]

/-- A non-structural line inside a typed block records a field. -/
theorem stepCore_openT_field (k : ShapeKind) (c : Cur) (u : UnitsSt) (l : ALine)
    (h : isStructural l = false) :
    stepCore (Core.openT k c u) l =
      (Core.openT k (fieldStep (some k) (c, u) l).1 (fieldStep (some k) (c, u) l).2, []) := by
  cases l <;> simp_all [stepCore, isStructural]

/-- A non-structural line inside an untyped block records a field. -/
theorem stepCore_openU_field (c : Cur) (u : UnitsSt) (l : ALine)
    (h : isStructural l = false) :
    stepCore (Core.openU c u) l =
      (Core.openU (fieldStep none (c, u) l).1 (fieldStep none (c, u) l).2, []) := by
  cases l <;> simp_all [stepCore, isStructural]

/-- A structural-free body inside a typed block folds the field recorder
and emits nothing. -/
theorem runCore_openT_fold (k : ShapeKind) :
    ∀ (body : List ALine) (c : Cur) (u : UnitsSt),
      (∀ l ∈ body, isStructural l = false) →
      runCore (Core.openT k c u) body =
        (Core.openT k (List.foldl (fieldStep (some k)) (c, u) body).1
          (List.foldl (fieldStep (some k)) (c, u) body).2, []) := by
  intro body
  induction body with
  | nil => intro c u _; simp [runCore]
  | cons l t ih =>
      intro c u h
      have hl : isStructural l = false := h l (by simp)
      have ht : ∀ x ∈ t, isStructural x = false := fun x hx => h x (by simp [hx])
      simp [runCore, stepCore_openT_field k c u l hl, List.foldl_cons, ih _ _ ht]

/-- An `end` from any state returns the machine to the outside state. -/
theorem stepCore_endB_fst (st : Core) : (stepCore st ALine.endB).1 = Core.outside := by
  cases st <;> rfl

/-- Lines other than `end` never emit shapes. -/
theorem stepCore_emits_nil (st : Core) (l : ALine) (h : l ≠ ALine.endB) :
    (stepCore st l).2 = [] := by
  cases st <;> cases l <;> simp_all [stepCore] <;> split <;> rfl

/-- A stream with no `end` line emits no shape at all. -/
theorem runCore_no_endB (st : Core) :
    ∀ ls : List ALine, ALine.endB ∉ ls → (runCore st ls).2 = [] := by
  intro ls
  induction ls generalizing st with
  | nil => intro _; rfl
  | cons l t ih =>
      intro h
      have hl : l ≠ ALine.endB := by rintro rfl; exact h (by simp)
      have ht : ALine.endB ∉ t := fun hm => h (by simp [hm])
      simp [runCore, stepCore_emits_nil st l hl, ih _ ht]

/-- Parsing a stream whose blocks are all closed continues independently
afterwards. -/
theorem gogParse_closed_append (a b : List ALine)
    (h : (runCore Core.outside a).1 = Core.outside) :
    gogParse (a ++ b) = gogParse a ++ gogParse b := by
  simp [gogParse, runCore_append, h]

/-- A line list ending in `end` leaves the machine outside any block. -/
theorem runCore_last_endB (st : Core) :
    ∀ a : List ALine, a.getLast? = some ALine.endB → (runCore st a).1 = Core.outside := by
  intro a
  induction a generalizing st with
  | nil => intro h; simp at h
  | cons l t ih =>
      intro h
      cases t with
      | nil =>
          simp at h
          subst h
          simp [runCore, stepCore_endB_fst]
      | cons x xs =>
          have h2 : (x :: xs).getLast? = some ALine.endB := by
            simpa [List.getLast?_cons_cons] using h
          simpa [runCore] using ih (stepCore st l).1 h2

/-- A complete non-annotation typed block parses to its finalized shapes
followed by the parse of the remaining stream. -/
theorem gogParse_typed_block (k : ShapeKind) (hk : k ≠ ShapeKind.anno)
    (body rest : List ALine) (h : ∀ l ∈ body, isStructural l = false) :
    gogParse (ALine.start :: ALine.shapeKw k :: body ++ ALine.endB :: rest) =
      finalizeShapes k (List.foldl (fieldStep (some k)) (emptyCur, defUnits) body).1
          (List.foldl (fieldStep (some k)) (emptyCur, defUnits) body).2 ++
        gogParse rest := by
  have h1 : runCore Core.outside (ALine.start :: ALine.shapeKw k :: body ++ ALine.endB :: rest)
      = runCore (Core.openT k emptyCur defUnits) (body ++ ALine.endB :: rest) := by
    simp [runCore, stepCore, hk]
  rw [gogParse, h1, runCore_append, runCore_openT_fold k body emptyCur defUnits h]
  simp [runCore, stepCore, gogParse]

/-- A complete annotation block (type bound by `annotation <text>`) parses
to its finalized shapes followed by the parse of the remainder. -/
theorem gogParse_anno_block (t : String) (body rest : List ALine)
    (h : ∀ l ∈ body, isStructural l = false) :
    gogParse (ALine.start :: ALine.annoKw t :: body ++ ALine.endB :: rest) =
      finalizeShapes ShapeKind.anno
          (List.foldl (fieldStep (some ShapeKind.anno))
            ({ emptyCur with annos := [(t, none)] }, defUnits) body).1
          (List.foldl (fieldStep (some ShapeKind.anno))
            ({ emptyCur with annos := [(t, none)] }, defUnits) body).2 ++
        gogParse rest := by
  have h1 : runCore Core.outside (ALine.start :: ALine.annoKw t :: body ++ ALine.endB :: rest)
      = runCore (Core.openT ShapeKind.anno { emptyCur with annos := [(t, none)] } defUnits)
          (body ++ ALine.endB :: rest) := by
    simp [runCore, stepCore]
  rw [gogParse, h1, runCore_append,
    runCore_openT_fold ShapeKind.anno body { emptyCur with annos := [(t, none)] } defUnits h]
  simp [runCore, stepCore, gogParse]

/-- Fold invariant: a property preserved by every step holds of the fold. -/
theorem foldl_keep {σ α : Type} (f : σ → α → σ) (P : σ → Prop) :
    ∀ (ls : List α), (∀ s a, a ∈ ls → P s → P (f s a)) → ∀ s, P s → P (List.foldl f s ls)
  | [], _, _, hs => hs
  | a :: t, hstep, s, hs =>
      foldl_keep f P t (fun s' b hb => hstep s' b (by simp [hb]))
        (f s a) (hstep s a (by simp) hs)

/-- A field line never touches the recorded center unless it is a
center-setting line. -/
theorem fieldStep_centerRaw (k : Option ShapeKind) (s : Cur × UnitsSt) (l : ALine)
    (h : isCenterSet l = false) : ((fieldStep k s l).1).centerRaw = s.1.centerRaw := by
  cases l <;> simp_all [fieldStep, isCenterSet] <;> split <;> rfl

/-- A field line never touches the second center unless it is a
second-center line. -/
theorem fieldStep_center2Raw (k : Option ShapeKind) (s : Cur × UnitsSt) (l : ALine)
    (h : isCenter2Set l = false) : ((fieldStep k s l).1).center2Raw = s.1.center2Raw := by
  cases l <;> simp_all [fieldStep, isCenter2Set] <;> split <;> rfl

/-- A field line never touches the reference position unless it is a
reference-point line. -/
theorem fieldStep_refPtRaw (k : Option ShapeKind) (s : Cur × UnitsSt) (l : ALine)
    (h : isRefSet l = false) : ((fieldStep k s l).1).refPtRaw = s.1.refPtRaw := by
  cases l <;> simp_all [fieldStep, isRefSet] <;> split <;> rfl

/-- A field line never touches the raw radius unless it is a radius line. -/
theorem fieldStep_radiusRaw (k : Option ShapeKind) (s : Cur × UnitsSt) (l : ALine)
    (h : isRadiusSet l = false) : ((fieldStep k s l).1).radiusRaw = s.1.radiusRaw := by
  cases l <;> simp_all [fieldStep, isRadiusSet] <;> split <;> rfl

/-- A field line never changes the range-unit family unless it is a
`rangeunits` line. -/
theorem fieldStep_rangeUnits (k : Option ShapeKind) (s : Cur × UnitsSt) (l : ALine)
    (h : isRangeUSet l = false) : ((fieldStep k s l).2).range = s.2.range := by
  cases l <;> simp_all [fieldStep, isRangeUSet] <;> split <;> rfl

/-- Outside annotation blocks, the recorded point list grows exactly with
the position lines. -/
theorem fieldStep_points_len (k : Option ShapeKind) (hk : k ≠ some ShapeKind.anno)
    (s : Cur × UnitsSt) (l : ALine) :
    ((fieldStep k s l).1).pointsRaw.length =
      s.1.pointsRaw.length + (if isPosSet l then 1 else 0) := by
  cases l <;> simp_all [fieldStep, isPosSet]

/-- Fold corollary: the recorded point count equals the number of
position lines of a structural-free body. -/
theorem foldl_points_len (k : Option ShapeKind) (hk : k ≠ some ShapeKind.anno) :
    ∀ (body : List ALine) (s : Cur × UnitsSt),
      ((List.foldl (fieldStep k) s body).1).pointsRaw.length =
        s.1.pointsRaw.length + body.countP isPosSet := by
  intro body
  induction body with
  | nil => intro s; simp
  | cons l t ih =>
      intro s
      rw [List.foldl_cons, List.countP_cons, ih (fieldStep k s l),
        fieldStep_points_len k hk s l]
      rcases hp : isPosSet l <;> simp [hp] <;> omega

/-- A kind that requires a center produces nothing without one. -/
theorem finalize_no_center (k : ShapeKind) (c : Cur) (u : UnitsSt)
    (hk : needsCenter k = true) (h : c.centerRaw = none) : finalizeShapes k c u = [] := by
  cases k <;> simp_all [needsCenter, finalizeShapes]

/-- An orbit without its second center produces nothing. -/
theorem finalize_orbit_no_center2 (c : Cur) (u : UnitsSt) (h : c.center2Raw = none) :
    finalizeShapes ShapeKind.orbit c u = [] := by
  rcases hc : c.centerRaw <;> simp [finalizeShapes, h, hc]

/-- A point-based kind with too few recorded positions produces nothing. -/
theorem finalize_pb_short (k : ShapeKind) (c : Cur) (u : UnitsSt)
    (hk : k = ShapeKind.line ∨ k = ShapeKind.lineSegs ∨ k = ShapeKind.polygon ∨
      k = ShapeKind.points)
    (h : c.pointsRaw.length < minPts k) : finalizeShapes k c u = [] := by
  rcases hk with rfl | rfl | rfl | rfl <;> simp only [finalizeShapes, minPts] at h ⊢ <;>
    rw [if_neg (by omega)]

/-- A lone annotation that never received a position produces nothing. -/
theorem finalize_anno_pending (c : Cur) (u : UnitsSt) (t : String)
    (h : c.annos = [(t, none)]) : finalizeShapes ShapeKind.anno c u = [] := by
  simp [finalizeShapes, h]

/-- A lone annotation with empty text produces nothing. -/
theorem finalize_anno_empty_text (c : Cur) (u : UnitsSt) (t : String) (o : Option RawPos)
    (h : c.annos = [(t, o)]) (ht : t = "") : finalizeShapes ShapeKind.anno c u = [] := by
  subst ht
  rcases o <;> simp [finalizeShapes, h]

/-- Inside an annotation block a non-structural line keeps a singleton
annotation list a singleton with the same text. -/
theorem fieldStep_annos_single (s : Cur × UnitsSt) (l : ALine) (t : String) (o : Option RawPos)
    (h : isStructural l = false) (ha : s.1.annos = [(t, o)]) :
    ∃ o', ((fieldStep (some ShapeKind.anno) s l).1).annos = [(t, o')] := by
  cases l <;> simp_all [fieldStep, setLastPos] <;> exact ⟨o, ha⟩

/-- Inside an annotation block a non-position, non-structural line keeps
the annotation list unchanged. -/
theorem fieldStep_annos_keep (s : Cur × UnitsSt) (l : ALine)
    (h : isStructural l = false) (hp : isAnyPosSet l = false) :
    ((fieldStep (some ShapeKind.anno) s l).1).annos = s.1.annos := by
  cases l <;> simp_all [fieldStep, isAnyPosSet, isCenterSet, isPosSet]

/-- Every shape a block finalizes inherits the block's (absent) reference
position: no reference-point line means no stored reference position. -/
theorem finalize_refPos_none (k : ShapeKind) (c : Cur) (u : UnitsSt) (h : c.refPtRaw = none) :
    ∀ s' ∈ finalizeShapes k c u, s'.referencePosition = none := by
  intro s' hs
  cases k with
  | circle =>
      rcases hc : c.centerRaw with _ | p <;> simp [finalizeShapes, hc] at hs
      subst hs
      simp [addAxes, addH, addEll, addCirc, addFill, baseShape, h]
  | sphere =>
      rcases hc : c.centerRaw with _ | p <;> simp [finalizeShapes, hc] at hs
      subst hs
      simp [addAxes, addH, addEll, addCirc, addFill, baseShape, h]
  | hemisphere =>
      rcases hc : c.centerRaw with _ | p <;> simp [finalizeShapes, hc] at hs
      subst hs
      simp [addAxes, addH, addEll, addCirc, addFill, baseShape, h]
  | ellipsoid =>
      rcases hc : c.centerRaw with _ | p <;> simp [finalizeShapes, hc] at hs
      subst hs
      simp [addAxes, addH, addEll, addCirc, addFill, baseShape, h]
  | arc =>
      rcases hc : c.centerRaw with _ | p <;> simp [finalizeShapes, hc] at hs
      subst hs
      simp [addAxes, addH, addEll, addCirc, addFill, baseShape, h]
  | ellipse =>
      rcases hc : c.centerRaw with _ | p <;> simp [finalizeShapes, hc] at hs
      subst hs
      simp [addAxes, addH, addEll, addCirc, addFill, baseShape, h]
  | cylinder =>
      rcases hc : c.centerRaw with _ | p <;> simp [finalizeShapes, hc] at hs
      subst hs
      simp [addAxes, addH, addEll, addCirc, addFill, baseShape, h]
  | cone =>
      rcases hc : c.centerRaw with _ | p <;> simp [finalizeShapes, hc] at hs
      subst hs
      simp [addAxes, addH, addEll, addCirc, addFill, baseShape, h]
  | orbit =>
      rcases hc : c.centerRaw with _ | p <;> rcases hc2 : c.center2Raw with _ | p2 <;>
        simp [finalizeShapes, hc, hc2] at hs
      subst hs
      simp [addCirc, addFill, baseShape, h]
  | line =>
      by_cases hcnd : 2 ≤ c.pointsRaw.length <;> simp [finalizeShapes, hcnd] at hs
      subst hs
      simp [addPts, addFill, baseShape, h]
  | lineSegs =>
      by_cases hcnd : 2 ≤ c.pointsRaw.length <;> simp [finalizeShapes, hcnd] at hs
      subst hs
      simp [addPts, addFill, baseShape, h]
  | polygon =>
      by_cases hcnd : 3 ≤ c.pointsRaw.length <;> simp [finalizeShapes, hcnd] at hs
      subst hs
      simp [addPts, addFill, baseShape, h]
  | points =>
      by_cases hcnd : 1 ≤ c.pointsRaw.length <;> simp [finalizeShapes, hcnd] at hs
      subst hs
      simp [baseShape, h]
  | anno =>
      simp [finalizeShapes] at hs
      obtain ⟨a, b, ha, hmap⟩ := hs
      rcases b with _ | p
      · simp at hmap
      · by_cases ht : a = "" <;> simp [ht] at hmap
        subst hmap
        simp [annoShape, baseShape, h]

/-- The shared accessor scheme satisfies the dual status/value contract. -/
theorem optContract_getOptS {α : Type} (o : Option α) (d : α) :
    optContract o (getOptS o d) d := by
  constructor
  · intro h; rw [h]; rfl
  · intro v hv; rw [hv]; rfl

/-- Claim C1: every optional-field accessor of every parsed shape returns
a non-zero status and the shape-type-specific default when the field was
never explicitly set (drawn true, depth-buffer false, altitude offset 0,
altitude mode NONE, scale (1,1,1), follow flags false, orientation
offsets 0, outline true, line width 1, line style SOLID, filled false,
radius 500, height 500, elliptical angles and axes 0, ellipsoid axes
1000), and status zero together with the exact stored (unit-converted)
value when it was explicitly set. -/
theorem gog_optional_accessor_contract (ls : List ALine) (s : Shape)
    (hs : s ∈ gogParse ls) : accessorContract s := by
  refine ⟨optContract_getOptS _ _, optContract_getOptS _ _, optContract_getOptS _ _,
    optContract_getOptS _ _, optContract_getOptS _ _, optContract_getOptS _ _,
    optContract_getOptS _ _, optContract_getOptS _ _, optContract_getOptS _ _,
    optContract_getOptS _ _, optContract_getOptS _ _, optContract_getOptS _ _,
    optContract_getOptS _ _, optContract_getOptS _ _, optContract_getOptS _ _,
    optContract_getOptS _ _, optContract_getOptS _ _, optContract_getOptS _ _,
    optContract_getOptS _ _, ?_, ?_⟩
  · intro hk
    constructor <;> simp [Shape.getMajorAxis, Shape.getMinorAxis, hk] <;>
      exact optContract_getOptS _ _
  · intro hk
    constructor <;> simp [Shape.getMajorAxis, Shape.getMinorAxis, hk] <;>
      exact optContract_getOptS _ _

/-- Witness for C1 at the minimal-ellipsoid parse. -/
theorem gog_optional_accessor_contract_witness :
    c1S ∈ gogParse c1Lines ∧ accessorContract c1S :=
  ⟨by decide, gog_optional_accessor_contract c1Lines c1S (by decide)⟩

/-- Claim C9: a shape produced from a block that never sets a reference
position reports not-set and yields the fixed BSTUR fallback location
(latitude 22.1194392 degrees, longitude -159.9194988 degrees, altitude
0, latitude/longitude in radians). -/
theorem gog_default_reference_position :
    (∀ k : ShapeKind, k ≠ ShapeKind.anno → ∀ body : List ALine,
      (∀ l ∈ body, isStructural l = false ∧ isRefSet l = false) →
      ∀ s ∈ gogParse (ALine.start :: ALine.shapeKw k :: body ++ [ALine.endB]),
        s.getReferencePosition = (1, bsturPos)) ∧
    (∀ t : String, ∀ body : List ALine,
      (∀ l ∈ body, isStructural l = false ∧ isRefSet l = false) →
      ∀ s ∈ gogParse (ALine.start :: ALine.annoKw t :: body ++ [ALine.endB]),
        s.getReferencePosition = (1, bsturPos)) := by
  constructor
  · intro k hk body h s hs
    rw [gogParse_typed_block k hk body [] (fun l hl => (h l hl).1)] at hs
    simp only [gogParse, runCore, List.append_nil] at hs
    have hnone : ((List.foldl (fieldStep (some k)) (emptyCur, defUnits) body).1).refPtRaw = none := by
      refine foldl_keep (fieldStep (some k)) (fun s' => s'.1.refPtRaw = none) body ?_ _ rfl
      intro s' a ha hP
      rw [fieldStep_refPtRaw (some k) s' a (h a ha).2]
      exact hP
    have := finalize_refPos_none k _ _ hnone s hs
    simp [Shape.getReferencePosition, this, getOptS]
  · intro t body h s hs
    rw [gogParse_anno_block t body [] (fun l hl => (h l hl).1)] at hs
    simp only [gogParse, runCore, List.append_nil] at hs
    have hnone : ((List.foldl (fieldStep (some ShapeKind.anno))
        ({ emptyCur with annos := [(t, none)] }, defUnits) body).1).refPtRaw = none := by
      refine foldl_keep (fieldStep (some ShapeKind.anno))
        (fun s' => s'.1.refPtRaw = none) body ?_ _ rfl
      intro s' a ha hP
      rw [fieldStep_refPtRaw (some ShapeKind.anno) s' a (h a ha).2]
      exact hP
    have := finalize_refPos_none ShapeKind.anno _ _ hnone s hs
    simp [Shape.getReferencePosition, this, getOptS]

/-- Witness for C9 at a concrete circle block. -/
theorem gog_default_reference_position_witness :
    (∀ l ∈ c9Lines.drop 2 |>.dropLast, isStructural l = false ∧ isRefSet l = false) ∧
      c9S ∈ gogParse c9Lines ∧ c9S.getReferencePosition = (1, bsturPos) :=
  ⟨by decide, by decide,
    gog_default_reference_position.1 ShapeKind.circle (by decide)
      [ALine.centerLLA (251 / 10) (291 / 5) 12] (by decide) c9S (by decide)⟩

/-- Claim C2: a typed block missing a required field of its bound kind
(center for the circular/elliptical family, either center for orbit,
enough positions for the point-based kinds, text or position for an
annotation) emits zero shapes, and parsing resumes outside so subsequent
blocks still produce their shapes. -/
theorem gog_missing_required_fields :
    (∀ (k : ShapeKind) (body rest : List ALine), needsCenter k = true →
      (∀ l ∈ body, isStructural l = false ∧ isCenterSet l = false) →
      gogParse (ALine.start :: ALine.shapeKw k :: body ++ ALine.endB :: rest) =
        gogParse rest) ∧
    (∀ body rest : List ALine,
      (∀ l ∈ body, isStructural l = false ∧ isCenter2Set l = false) →
      gogParse (ALine.start :: ALine.shapeKw ShapeKind.orbit :: body ++ ALine.endB :: rest) =
        gogParse rest) ∧
    (∀ (k : ShapeKind) (body rest : List ALine),
      (k = ShapeKind.line ∨ k = ShapeKind.lineSegs ∨ k = ShapeKind.polygon ∨
        k = ShapeKind.points) →
      (∀ l ∈ body, isStructural l = false) →
      body.countP isPosSet < minPts k →
      gogParse (ALine.start :: ALine.shapeKw k :: body ++ ALine.endB :: rest) =
        gogParse rest) ∧
    (∀ (t : String) (body rest : List ALine), t = "" →
      (∀ l ∈ body, isStructural l = false) →
      gogParse (ALine.start :: ALine.annoKw t :: body ++ ALine.endB :: rest) =
        gogParse rest) ∧
    (∀ (t : String) (body rest : List ALine),
      (∀ l ∈ body, isStructural l = false ∧ isAnyPosSet l = false) →
      gogParse (ALine.start :: ALine.annoKw t :: body ++ ALine.endB :: rest) =
        gogParse rest) := by
  refine ⟨?_, ?_, ?_, ?_, ?_⟩
  · intro k body rest hneed h
    have hk : k ≠ ShapeKind.anno := by rintro rfl; simp [needsCenter] at hneed
    rw [gogParse_typed_block k hk body rest (fun l hl => (h l hl).1)]
    have hnone : ((List.foldl (fieldStep (some k)) (emptyCur, defUnits) body).1).centerRaw = none := by
      refine foldl_keep (fieldStep (some k)) (fun s' => s'.1.centerRaw = none) body ?_ _ rfl
      intro s' a ha hP
      rw [fieldStep_centerRaw (some k) s' a (h a ha).2]
      exact hP
    rw [finalize_no_center k _ _ hneed hnone]
    rfl
  · intro body rest h
    have hk : ShapeKind.orbit ≠ ShapeKind.anno := by decide
    rw [gogParse_typed_block ShapeKind.orbit hk body rest (fun l hl => (h l hl).1)]
    have hnone : ((List.foldl (fieldStep (some ShapeKind.orbit))
        (emptyCur, defUnits) body).1).center2Raw = none := by
      refine foldl_keep (fieldStep (some ShapeKind.orbit))
        (fun s' => s'.1.center2Raw = none) body ?_ _ rfl
      intro s' a ha hP
      rw [fieldStep_center2Raw (some ShapeKind.orbit) s' a (h a ha).2]
      exact hP
    rw [finalize_orbit_no_center2 _ _ hnone]
    rfl
  · intro k body rest hk4 h hcnt
    have hk : k ≠ ShapeKind.anno := by
      rcases hk4 with rfl | rfl | rfl | rfl <;> decide
    rw [gogParse_typed_block k hk body rest h]
    have hlen : ((List.foldl (fieldStep (some k)) (emptyCur, defUnits) body).1).pointsRaw.length
        = body.countP isPosSet := by
      have := foldl_points_len (some k) (by simp [hk]) body (emptyCur, defUnits)
      simpa [emptyCur] using this
    rw [finalize_pb_short k _ _ hk4 (by rw [hlen]; exact hcnt)]
    rfl
  · intro t body rest ht h
    rw [gogParse_anno_block t body rest h]
    have hsingle : ∃ o, ((List.foldl (fieldStep (some ShapeKind.anno))
        ({ emptyCur with annos := [(t, none)] }, defUnits) body).1).annos = [(t, o)] := by
      refine foldl_keep (fieldStep (some ShapeKind.anno))
        (fun s' => ∃ o, s'.1.annos = [(t, o)]) body ?_ _ ⟨none, rfl⟩
      intro s' a ha hP
      obtain ⟨o, ho⟩ := hP
      exact fieldStep_annos_single s' a t o (h a ha) ho
    obtain ⟨o, ho⟩ := hsingle
    rw [finalize_anno_empty_text _ _ t o ho ht]
    rfl
  · intro t body rest h
    rw [gogParse_anno_block t body rest (fun l hl => (h l hl).1)]
    have hpend : ((List.foldl (fieldStep (some ShapeKind.anno))
        ({ emptyCur with annos := [(t, none)] }, defUnits) body).1).annos = [(t, none)] := by
      refine foldl_keep (fieldStep (some ShapeKind.anno))
        (fun s' => s'.1.annos = [(t, none)]) body ?_ _ rfl
      intro s' a ha hP
      rw [fieldStep_annos_keep s' a (h a ha).1 (h a ha).2]
      exact hP
    rw [finalize_anno_pending _ _ t hpend]
    rfl

/-- Witness for C2: concrete incomplete blocks of every family emit
nothing, and a well-formed block after a failed one still parses. -/
theorem gog_missing_required_fields_witness :
    needsCenter ShapeKind.circle = true ∧
    gogParse (ALine.start :: ALine.shapeKw ShapeKind.circle :: [] ++ ALine.endB :: c9Lines) =
      gogParse c9Lines ∧
    gogParse c9Lines ≠ [] ∧
    gogParse (ALine.start :: ALine.shapeKw ShapeKind.orbit ::
      [ALine.centerLLA 1 2 0] ++ ALine.endB :: []) = gogParse [] ∧
    gogParse (ALine.start :: ALine.shapeKw ShapeKind.line ::
      [ALine.posLLA 1 2 0] ++ ALine.endB :: []) = gogParse [] ∧
    gogParse (ALine.start :: ALine.annoKw sEmpty ::
      [ALine.centerLLA 1 2 0] ++ ALine.endB :: []) = gogParse [] ∧
    gogParse (ALine.start :: ALine.annoKw sLab1 ::
      [ALine.fontSizeKw 24] ++ ALine.endB :: []) = gogParse [] :=
  ⟨by decide,
   gog_missing_required_fields.1 ShapeKind.circle [] c9Lines (by decide) (by decide),
   by decide,
   gog_missing_required_fields.2.1 [ALine.centerLLA 1 2 0] [] (by decide),
   gog_missing_required_fields.2.2.1 ShapeKind.line [ALine.posLLA 1 2 0] [] (by decide)
     (by decide) (by decide),
   gog_missing_required_fields.2.2.2.1 sEmpty [ALine.centerLLA 1 2 0] [] (by decide) (by decide),
   gog_missing_required_fields.2.2.2.2 sLab1 [ALine.fontSizeKw 24] [] (by decide)⟩

set_option maxHeartbeats 1000000 in
/-- A structural-free body inside an untyped block folds the field
recorder and emits nothing. -/
theorem runCore_openU_fold :
    ∀ (body : List ALine) (c : Cur) (u : UnitsSt),
      (∀ l ∈ body, isStructural l = false) →
      runCore (Core.openU c u) body =
        (Core.openU (List.foldl (fieldStep none) (c, u) body).1
          (List.foldl (fieldStep none) (c, u) body).2, []) := by
  intro body
  induction body with
  | nil => intro c u _; simp [runCore]
  | cons l t ih =>
      intro c u h
      have hl : isStructural l = false := h l (by simp)
      have ht : ∀ x ∈ t, isStructural x = false := fun x hx => h x (by simp [hx])
      have ih' := ih (fieldStep none (c, u) l).1 (fieldStep none (c, u) l).2 ht
      simp [runCore, stepCore_openU_field c u l hl, List.foldl_cons, ih']

/-- A structural-free body inside a discarded (ambiguous) block is
ignored entirely. -/
theorem runCore_openBad_skip :
    ∀ ls : List ALine, (∀ l ∈ ls, isStructural l = false) →
      runCore Core.openBad ls = (Core.openBad, []) := by
  intro ls
  induction ls with
  | nil => simp [runCore]
  | cons l t ih =>
      intro h
      have hl : isStructural l = false := h l (by simp)
      have hstep : stepCore Core.openBad l = (Core.openBad, []) := by
        cases l <;> first | rfl | simp_all [isStructural]
      have ht : ∀ x ∈ t, isStructural x = false := fun x hx => h x (by simp [hx])
      simp [runCore, hstep, ih ht]

/-- Claim C3 (amended): a block with zero shape-type keywords emits no
shape; a block whose type assignment is made ambiguous by a second
shape-type keyword emits no shape, except that further `annotation`
keywords inside an annotation-typed block begin sibling annotations; a
`start` with no matching `end` emits no shape; and a type keyword
followed by `end` with no preceding `start` emits no shape. -/
theorem gog_structural_errors_no_shape :
    (∀ body rest : List ALine, (∀ l ∈ body, isStructural l = false) →
      gogParse (ALine.start :: body ++ ALine.endB :: rest) = gogParse rest) ∧
    (∀ (l1 l2 : ALine) (k1 k2 : ShapeKind) (body1 body2 rest : List ALine),
      typeLineKind l1 = some k1 → typeLineKind l2 = some k2 →
      ¬(k1 = ShapeKind.anno ∧ k2 = ShapeKind.anno) →
      (∀ l ∈ body1, isStructural l = false) →
      (∀ l ∈ body2, isStructural l = false) →
      gogParse (ALine.start :: l1 :: body1 ++ l2 :: body2 ++ ALine.endB :: rest) =
        gogParse rest) ∧
    (∀ ls : List ALine, ALine.endB ∉ ls → gogParse (ALine.start :: ls) = []) ∧
    (∀ (l : ALine) (k : ShapeKind) (rest : List ALine), typeLineKind l = some k →
      gogParse (l :: ALine.endB :: rest) = gogParse rest) := by
  refine ⟨?_, ?_, ?_, ?_⟩
  · intro body rest h
    have h1 : runCore Core.outside (ALine.start :: body ++ ALine.endB :: rest)
        = runCore (Core.openU emptyCur defUnits) (body ++ ALine.endB :: rest) := by
      simp [runCore, stepCore]
    rw [gogParse, h1, runCore_append, runCore_openU_fold body emptyCur defUnits h]
    simp [runCore, stepCore, gogParse]
  · intro l1 l2 k1 k2 body1 body2 rest h1 h2 hex hb1 hb2
    obtain ⟨c0, hs1⟩ : ∃ c0, stepCore (Core.openU emptyCur defUnits) l1
        = (Core.openT k1 c0 defUnits, []) := by
      cases l1 <;> simp [typeLineKind] at h1
      case shapeKw k =>
        subst h1
        by_cases ha : k = ShapeKind.anno
        · subst ha
          exact ⟨{ emptyCur with annos := [(sEmpty, none)] }, by simp [stepCore, sEmpty]⟩
        · exact ⟨emptyCur, by simp [stepCore, ha]⟩
      case annoKw t =>
        subst h1
        exact ⟨{ emptyCur with annos := [(t, none)] }, by simp [stepCore]⟩
    have hs2 : ∀ c u, stepCore (Core.openT k1 c u) l2 = (Core.openBad, []) := by
      intro c u
      cases l2 <;> simp [typeLineKind] at h2
      case shapeKw k =>
        subst h2
        have : ¬(k1 = ShapeKind.anno ∧ k = ShapeKind.anno) := hex
        simp [stepCore, this]
      case annoKw t =>
        subst h2
        have hk1 : ¬(k1 = ShapeKind.anno) := fun hh => hex ⟨hh, rfl⟩
        simp [stepCore, hk1]
    have estart : stepCore Core.outside ALine.start = (Core.openU emptyCur defUnits, []) := rfl
    have eend : stepCore Core.openBad ALine.endB = (Core.outside, []) := rfl
    have ebody1 := runCore_openT_fold k1 body1 c0 defUnits hb1
    have ebad := runCore_openBad_skip body2 hb2
    have hs2' := hs2 (List.foldl (fieldStep (some k1)) (c0, defUnits) body1).1
      (List.foldl (fieldStep (some k1)) (c0, defUnits) body1).2
    have step2 : runCore Core.outside
        (ALine.start :: l1 :: body1 ++ l2 :: body2 ++ ALine.endB :: rest)
        = runCore (Core.openT k1 c0 defUnits) (body1 ++ l2 :: body2 ++ ALine.endB :: rest) := by
      simp only [runCore, estart, hs1]
      simp
    rw [gogParse, step2, runCore_append, runCore_append, ebody1]
    simp only [runCore, hs2']
    rw [ebad]
    simp only [runCore, eend]
    simp [gogParse]
  · intro ls hnot
    have hmem : ALine.endB ∉ (ALine.start :: ls) := by simp [hnot]
    simpa [gogParse] using runCore_no_endB Core.outside (ALine.start :: ls) hmem
  · intro l k rest h
    have hl : stepCore Core.outside l = (Core.outside, []) := by
      cases l <;> first | rfl | simp [typeLineKind] at h
    have heb : stepCore Core.outside ALine.endB = (Core.outside, []) := rfl
    simp [gogParse, runCore, hl, heb]

/-- Counterexample to C3 as frozen: a block containing two occurrences of
the `annotation` shape-type keyword emits two shapes, not zero. -/
theorem gog_multi_keyword_claim_cex : (gogParse c3CexLines).length = 2 := by decide

/-- Witness for C3 at concrete malformed inputs. -/
theorem gog_structural_errors_no_shape_witness :
    gogParse (ALine.start :: [ALine.centerLLA 1 2 0] ++ ALine.endB :: []) = gogParse [] ∧
    gogParse (ALine.start :: ALine.shapeKw ShapeKind.circle ::
      [] ++ ALine.shapeKw ShapeKind.line :: [ALine.centerLLA 1 2 0] ++ ALine.endB :: []) =
      gogParse [] ∧
    gogParse [ALine.start, ALine.shapeKw ShapeKind.circle] = [] ∧
    gogParse (ALine.shapeKw ShapeKind.circle :: ALine.endB :: []) = gogParse [] :=
  ⟨gog_structural_errors_no_shape.1 [ALine.centerLLA 1 2 0] [] (by decide),
   gog_structural_errors_no_shape.2.1 (ALine.shapeKw ShapeKind.circle)
     (ALine.shapeKw ShapeKind.line) ShapeKind.circle ShapeKind.line []
     [ALine.centerLLA 1 2 0] [] (by decide) (by decide) (by decide) (by decide) (by decide),
   gog_structural_errors_no_shape.2.2.1 [ALine.shapeKw ShapeKind.circle] (by decide),
   gog_structural_errors_no_shape.2.2.2 (ALine.shapeKw ShapeKind.circle) ShapeKind.circle []
     (by decide)⟩

/-- Once a center is recorded, no later field line removes it. -/
theorem fieldStep_center_some (k : Option ShapeKind) (s : Cur × UnitsSt) (l : ALine)
    (h : s.1.centerRaw.isSome = true) : ((fieldStep k s l).1).centerRaw.isSome = true := by
  cases l <;> simp_all [fieldStep] <;> split <;> simp_all

/-- The stored radius of a finalized circle is the raw radius converted
with the block's final range units. -/
theorem finalize_circle_radius (c : Cur) (u : UnitsSt) (p : RawPos) (h : c.centerRaw = some p) :
    (finalizeShapes ShapeKind.circle c u).map (fun s => s.radius) =
      [c.radiusRaw.map (fun v => convRange u v)] := by
  simp [finalizeShapes, h, addCirc, addFill]

/-- A circle block whose folded context carries raw radius `r`, final
range unit `u` and a center parses to one shape of radius `r * u`. -/
theorem circle_block_radius_units (body : List ALine) (r : ℚ) (u : RUnit)
    (h : ∀ l ∈ body, isStructural l = false)
    (hr : ((List.foldl (fieldStep (some ShapeKind.circle)) (emptyCur, defUnits) body).1).radiusRaw
      = some r)
    (hu : ((List.foldl (fieldStep (some ShapeKind.circle)) (emptyCur, defUnits) body).2).range = u)
    (hc : ((List.foldl (fieldStep (some ShapeKind.circle)) (emptyCur, defUnits) body).1).centerRaw.isSome
      = true) :
    (gogParse (ALine.start :: ALine.shapeKw ShapeKind.circle :: body ++ [ALine.endB])).map
        (fun s => s.radius) = [some (rvq (r * RUnit.toM u))] := by
  rw [gogParse_typed_block ShapeKind.circle (by decide) body [] h]
  obtain ⟨p, hp⟩ := Option.isSome_iff_exists.mp hc
  rw [List.map_append, finalize_circle_radius _ _ p hp]
  simp [gogParse, runCore, hr, convRange, hu]

/-- A unit-override line is a plain field line for the block machine. -/
theorem isUnitLine_not_structural (l : ALine) (h : isUnitLine l = true) :
    isStructural l = false := by
  cases l <;> simp_all [isUnitLine, isStructural]

/-- A unit-override line never touches the raw field context. -/
theorem fieldStep_unit_fst (k : Option ShapeKind) (s : Cur × UnitsSt) (l : ALine)
    (h : isUnitLine l = true) : (fieldStep k s l).1 = s.1 := by
  cases l <;> simp_all [isUnitLine] <;> rfl

/-- A line's effect on the raw field context never reads the unit
configuration: raw values are stored unconverted. -/
theorem fieldStep_fst_units (k : Option ShapeKind) (c : Cur) (u v : UnitsSt) (l : ALine) :
    (fieldStep k (c, u) l).1 = (fieldStep k (c, v) l).1 := by
  cases l <;> first | rfl | (simp only [fieldStep]; split <;> rfl)

/-- A non-override line leaves the unit configuration unchanged. -/
theorem fieldStep_nonunit_snd (k : Option ShapeKind) (s : Cur × UnitsSt) (l : ALine)
    (h : isUnitLine l = false) : (fieldStep k s l).2 = s.2 := by
  cases l <;> first
    | rfl
    | (simp only [fieldStep]; split <;> rfl)
    | simp [isUnitLine] at h

/-- The unit-family state a field line produces does not depend on the
attribute context. -/
theorem fieldStep_snd (k : Option ShapeKind) (c c' : Cur) (u : UnitsSt) (l : ALine) :
    (fieldStep k (c, u) l).2 = (fieldStep k (c', u) l).2 := by
  cases l <;> first | rfl | (simp only [fieldStep]; split <;> rfl)

/-- A unit override commutes with every non-override line: the override
acts only on the unit configuration, the field line only on the raw
context, and neither reads the other component. -/
theorem fieldStep_comm (k : Option ShapeKind) (uL l : ALine) (s : Cur × UnitsSt)
    (hu : isUnitLine uL = true) (hl : isUnitLine l = false) :
    fieldStep k (fieldStep k s uL) l = fieldStep k (fieldStep k s l) uL := by
  have hpairU : fieldStep k s uL = (s.1, (fieldStep k s uL).2) := by
    rw [← fieldStep_unit_fst k s uL hu]
  have hpairL : fieldStep k s l = ((fieldStep k s l).1, s.2) := by
    rw [← fieldStep_nonunit_snd k s l hl]
  have h1 : (fieldStep k (fieldStep k s uL) l).1 = (fieldStep k (fieldStep k s l) uL).1 := by
    rw [fieldStep_unit_fst k (fieldStep k s l) uL hu, hpairU,
      fieldStep_fst_units k s.1 ((fieldStep k s uL).2) s.2 l]
  have h2 : (fieldStep k (fieldStep k s uL) l).2 = (fieldStep k (fieldStep k s l) uL).2 := by
    rw [fieldStep_nonunit_snd k (fieldStep k s uL) l hl, hpairL,
      fieldStep_snd k ((fieldStep k s l).1) s.1 s.2 uL]
  exact Prod.ext_iff.mpr ⟨h1, h2⟩

/-- A single unit override migrates to the front of the fold across any
run of non-override lines. -/
theorem foldl_unit_front (k : Option ShapeKind) (uL : ALine) (hu : isUnitLine uL = true) :
    ∀ (a : List ALine), (∀ l ∈ a, isUnitLine l = false) →
      ∀ (s : Cur × UnitsSt) (b : List ALine),
      List.foldl (fieldStep k) s (a ++ uL :: b) =
        List.foldl (fieldStep k) s (uL :: (a ++ b)) := by
  intro a
  induction a with
  | nil => intro _ s b; rfl
  | cons l t ih =>
      intro ha s b
      have hl : isUnitLine l = false := ha l (by simp)
      have ht : ∀ x ∈ t, isUnitLine x = false := fun x hx => ha x (by simp [hx])
      calc List.foldl (fieldStep k) s ((l :: t) ++ uL :: b)
          = List.foldl (fieldStep k) (fieldStep k s l) (t ++ uL :: b) := rfl
        _ = List.foldl (fieldStep k) (fieldStep k s l) (uL :: (t ++ b)) := ih ht _ b
        _ = List.foldl (fieldStep k) (fieldStep k (fieldStep k s l) uL) (t ++ b) := rfl
        _ = List.foldl (fieldStep k) (fieldStep k (fieldStep k s uL) l) (t ++ b) := by
              rw [fieldStep_comm k uL l s hu hl]
        _ = List.foldl (fieldStep k) s ((uL :: l :: t) ++ b) := rfl

/-- Claim C4 (amended): every `rangeunits`/`altitudeunits`/`angleunits`
override governs all fields of its unit family in the whole block
regardless of line order: (i) an override moves across any run of
non-override field lines without changing the parse of any typed block;
(ii) with every override placed after every field line, each family's
fields - center altitude, radius, major/minor axes, height, altitude
offset, reference-point altitude, start/sweep angles - are still
converted with the block-final configuration; (iii) likewise the
altitudes of a point list; (iv) blocks parse independently, and (v) a
block following a closed prefix reopens with the defaults (yards, feet,
degrees) whatever overrides the prefix used. -/
theorem gog_units_block_scoped :
    (∀ (k : ShapeKind), k ≠ ShapeKind.anno →
      ∀ (uL : ALine) (a b rest : List ALine),
      isUnitLine uL = true →
      (∀ l ∈ a, isStructural l = false ∧ isUnitLine l = false) →
      (∀ l ∈ b, isStructural l = false) →
      gogParse (ALine.start :: ALine.shapeKw k :: (a ++ uL :: b) ++ ALine.endB :: rest) =
        gogParse (ALine.start :: ALine.shapeKw k :: (uL :: (a ++ b)) ++ ALine.endB :: rest)) ∧
    (∀ (la lo z r hh sa sw mj mn ao rla rlo rz : ℚ) (ru : RUnit) (au : AUnit),
      (gogParse [ALine.start, ALine.shapeKw ShapeKind.cylinder, ALine.centerLLA la lo z,
          ALine.radiusKw r, ALine.majorKw mj, ALine.minorKw mn, ALine.heightKw hh,
          ALine.angleStartKw sa, ALine.angleDegKw sw, ALine.altOffsetKw ao,
          ALine.refPt rla rlo rz,
          ALine.rangeU ru, ALine.altU au, ALine.angU AngUnit.radians, ALine.endB]).map
          (fun s => (s.center, s.radius, s.majorAxis, s.minorAxis, s.height,
                     s.altitudeOffset, s.referencePosition, s.angleStart, s.angleSweep)) =
        [(some ⟨rvd la, rvd lo, rvq (z * AUnit.toM au)⟩,
          some (rvq (r * RUnit.toM ru)),
          some (rvq (mj * RUnit.toM ru)),
          some (rvq (mn * RUnit.toM ru)),
          some (rvq (hh * AUnit.toM au)),
          some (rvq (ao * AUnit.toM au)),
          some ⟨rvd rla, rvd rlo, rvq (rz * AUnit.toM au)⟩,
          some (rvq sa), some (rvq sw))]) ∧
    (∀ (la1 lo1 z1 la2 lo2 z2 : ℚ) (au : AUnit),
      (gogParse [ALine.start, ALine.shapeKw ShapeKind.line, ALine.posLLA la1 lo1 z1,
          ALine.posLLA la2 lo2 z2, ALine.altU au, ALine.endB]).map (fun s => s.points) =
        [[⟨rvd la1, rvd lo1, rvq (z1 * AUnit.toM au)⟩,
          ⟨rvd la2, rvd lo2, rvq (z2 * AUnit.toM au)⟩]]) ∧
    (∀ a b : List ALine, a.getLast? = some ALine.endB →
      gogParse (a ++ b) = gogParse a ++ gogParse b) ∧
    (∀ (a : List ALine) (la lo z r hh sa sw mj mn : ℚ), a.getLast? = some ALine.endB →
      (gogParse (a ++ [ALine.start, ALine.shapeKw ShapeKind.cylinder,
          ALine.centerLLA la lo z, ALine.radiusKw r, ALine.majorKw mj, ALine.minorKw mn,
          ALine.heightKw hh, ALine.angleStartKw sa, ALine.angleDegKw sw, ALine.endB])).map
          (fun s => (s.center, s.radius, s.majorAxis, s.minorAxis, s.height,
                     s.angleStart, s.angleSweep)) =
        (gogParse a).map (fun s => (s.center, s.radius, s.majorAxis, s.minorAxis, s.height,
            s.angleStart, s.angleSweep)) ++
          [(some ⟨rvd la, rvd lo, rvq (z * AUnit.toM AUnit.feet)⟩,
            some (rvq (r * RUnit.toM RUnit.yards)),
            some (rvq (mj * RUnit.toM RUnit.yards)),
            some (rvq (mn * RUnit.toM RUnit.yards)),
            some (rvq (hh * AUnit.toM AUnit.feet)),
            some (rvd sa), some (rvd sw))]) := by
  refine ⟨?_, ?_, ?_, ?_, ?_⟩
  · intro k hk uL a b rest hu ha hb
    have hbody1 : ∀ l ∈ a ++ uL :: b, isStructural l = false := by
      intro l hl
      rcases List.mem_append.mp hl with h1 | h1
      · exact (ha l h1).1
      · rcases List.mem_cons.mp h1 with rfl | h1
        · exact isUnitLine_not_structural l hu
        · exact hb l h1
    have hbody2 : ∀ l ∈ uL :: (a ++ b), isStructural l = false := by
      intro l hl
      rcases List.mem_cons.mp hl with rfl | h1
      · exact isUnitLine_not_structural l hu
      · rcases List.mem_append.mp h1 with h2 | h2
        · exact (ha l h2).1
        · exact hb l h2
    rw [gogParse_typed_block k hk _ rest hbody1, gogParse_typed_block k hk _ rest hbody2,
      foldl_unit_front (some k) uL hu a (fun l hl => (ha l hl).2) (emptyCur, defUnits) b]
  · intro la lo z r hh sa sw mj mn ao rla rlo rz ru au
    simp [gogParse, runCore, stepCore, fieldStep, finalizeShapes, addEll, addH, addCirc,
      addFill, baseShape, sweepOf, convPos, convAlt, convRange, convAng, emptyCur, defUnits]
  · intro la1 lo1 z1 la2 lo2 z2 au
    simp [gogParse, runCore, stepCore, fieldStep, finalizeShapes, addPts, addFill, baseShape,
      convPos, convAlt, convRange, emptyCur, defUnits]
  · intro a b h
    exact gogParse_closed_append a b (runCore_last_endB Core.outside a h)
  · intro a la lo z r hh sa sw mj mn h
    rw [gogParse_closed_append a _ (runCore_last_endB Core.outside a h), List.map_append]
    congr 1

/-- Counterexample to C4 as frozen: a `radius 10` line before
`rangeunits km` is stored as 10000 meters (kilometers applied
retroactively), not as 10 yards converted with the units active when the
radius line was processed. -/
theorem gog_units_set_time_cex :
    (gogParse c4CexLines).map (fun s => s.radius) = [some (rvq 10000)] ∧
      ¬ (gogParse c4CexLines).map (fun s => s.radius) =
          [some (rvq (10 * RUnit.toM RUnit.yards))] := by
  constructor <;> decide

/-- Witness for C4 at concrete blocks. -/
theorem gog_units_block_scoped_witness :
    gogParse (ALine.start :: ALine.shapeKw ShapeKind.circle ::
        ([ALine.centerLLA 1 2 0, ALine.radiusKw 10] ++
          ALine.rangeU RUnit.kilometers :: []) ++ ALine.endB :: []) =
      gogParse (ALine.start :: ALine.shapeKw ShapeKind.circle ::
        (ALine.rangeU RUnit.kilometers ::
          ([ALine.centerLLA 1 2 0, ALine.radiusKw 10] ++ [])) ++ ALine.endB :: []) ∧
    gogParse (c9Lines ++ c1Lines) = gogParse c9Lines ++ gogParse c1Lines ∧
    (gogParse (c4CexLines ++ [ALine.start, ALine.shapeKw ShapeKind.cylinder,
        ALine.centerLLA 3 4 1, ALine.radiusKw 7, ALine.majorKw 5, ALine.minorKw 6,
        ALine.heightKw 8, ALine.angleStartKw 9, ALine.angleDegKw 11, ALine.endB])).map
        (fun s => (s.center, s.radius, s.majorAxis, s.minorAxis, s.height,
                   s.angleStart, s.angleSweep)) =
      (gogParse c4CexLines).map (fun s => (s.center, s.radius, s.majorAxis, s.minorAxis,
          s.height, s.angleStart, s.angleSweep)) ++
        [(some ⟨rvd 3, rvd 4, rvq (1 * AUnit.toM AUnit.feet)⟩,
          some (rvq (7 * RUnit.toM RUnit.yards)),
          some (rvq (5 * RUnit.toM RUnit.yards)),
          some (rvq (6 * RUnit.toM RUnit.yards)),
          some (rvq (8 * AUnit.toM AUnit.feet)),
          some (rvd 9), some (rvd 11))] :=
  ⟨gog_units_block_scoped.1 ShapeKind.circle (by decide) (ALine.rangeU RUnit.kilometers)
     [ALine.centerLLA 1 2 0, ALine.radiusKw 10] [] [] (by decide) (by decide) (by decide),
   gog_units_block_scoped.2.2.2.1 c9Lines c1Lines (by decide),
   gog_units_block_scoped.2.2.2.2 c4CexLines 3 4 1 7 8 9 11 5 6 (by decide)⟩

/-- Claim C5: with no override, range-family fields are yards stored as
meters and altitudes are feet stored as meters; `rangeunits km` makes
`radius 10` exactly 10000 m; `altitudeunits kf` converts kilofeet;
angles default to degrees stored as radians and `angleunits rad` makes
them radians; geographic latitude/longitude are degrees-to-radians
always, regardless of the angle-unit configuration. -/
theorem gog_unit_defaults :
    (∀ la lo al r : ℚ,
      (gogParse [ALine.start, ALine.shapeKw ShapeKind.circle, ALine.centerLLA la lo al,
          ALine.radiusKw r, ALine.endB]).map (fun s => (s.center, s.radius)) =
        [(some ⟨rvd la, rvd lo, rvq (al * AUnit.toM AUnit.feet)⟩,
          some (rvq (r * RUnit.toM RUnit.yards)))]) ∧
    (∀ la lo al : ℚ,
      (gogParse [ALine.start, ALine.shapeKw ShapeKind.circle, ALine.centerLLA la lo al,
          ALine.rangeU RUnit.kilometers, ALine.radiusKw 10, ALine.endB]).map
          (fun s => s.radius) = [some (rvq 10000)]) ∧
    (∀ la1 lo1 z1 la2 lo2 z2 : ℚ,
      (gogParse [ALine.start, ALine.shapeKw ShapeKind.line, ALine.posLLA la1 lo1 z1,
          ALine.posLLA la2 lo2 z2, ALine.altU AUnit.kilofeet, ALine.endB]).map
          (fun s => s.points) =
        [[⟨rvd la1, rvd lo1, rvq (z1 * AUnit.toM AUnit.kilofeet)⟩,
          ⟨rvd la2, rvd lo2, rvq (z2 * AUnit.toM AUnit.kilofeet)⟩]]) ∧
    (∀ la lo al sa sw : ℚ,
      (gogParse [ALine.start, ALine.shapeKw ShapeKind.arc, ALine.centerLLA la lo al,
          ALine.angleStartKw sa, ALine.angleDegKw sw, ALine.endB]).map
          (fun s => (s.angleStart, s.angleSweep)) = [(some (rvd sa), some (rvd sw))]) ∧
    (∀ la lo al sa sw : ℚ,
      (gogParse [ALine.start, ALine.shapeKw ShapeKind.arc, ALine.centerLLA la lo al,
          ALine.angleStartKw sa, ALine.angleDegKw sw, ALine.angU AngUnit.radians,
          ALine.endB]).map (fun s => (s.center, s.angleStart, s.angleSweep)) =
        [(some ⟨rvd la, rvd lo, rvq (al * AUnit.toM AUnit.feet)⟩,
          some (rvq sa), some (rvq sw))]) := by
  refine ⟨?_, ?_, ?_, ?_, ?_⟩ <;> intros <;>
    simp [gogParse, runCore, stepCore, fieldStep, finalizeShapes, addEll, addAxes, addH,
      addCirc, addFill, addPts, baseShape, sweepOf, convPos, convAlt, convRange, convAng,
      emptyCur, defUnits, rvq, rvd, RUnit.toM] <;> norm_num

/-- Claim C6: an arc given `anglestart` and `angleend` (no sweep) stores
the sweep `((angleEnd - angleStart) mod 360 + 360) mod 360`, computed in
degrees, a value in [0, 360); in particular start 10 with end 55, and
start 10 with end -305, both produce exactly the shape of an explicit
45-degree sweep. -/
theorem gog_sweep_from_end_angle :
    (∀ la lo al sa e : ℚ,
      (gogParse [ALine.start, ALine.shapeKw ShapeKind.arc, ALine.centerLLA la lo al,
          ALine.angleStartKw sa, ALine.angleEndKw e, ALine.endB]).map
          (fun s => s.angleSweep) = [some (rvd (posMod360 (e - sa)))]) ∧
    (∀ x : ℚ, 0 ≤ posMod360 x ∧ posMod360 x < 360) ∧
    gogParse [ALine.start, ALine.shapeKw ShapeKind.arc, ALine.centerLLA (244/10) (432/10) 0,
        ALine.angleStartKw 10, ALine.angleEndKw 55, ALine.majorKw 100, ALine.minorKw 250,
        ALine.endB] =
      gogParse [ALine.start, ALine.shapeKw ShapeKind.arc, ALine.centerLLA (244/10) (432/10) 0,
        ALine.angleStartKw 10, ALine.angleDegKw 45, ALine.majorKw 100, ALine.minorKw 250,
        ALine.endB] ∧
    gogParse [ALine.start, ALine.shapeKw ShapeKind.arc, ALine.centerLLA (244/10) (432/10) 0,
        ALine.angleStartKw 10, ALine.angleEndKw (-305), ALine.majorKw 100, ALine.minorKw 250,
        ALine.endB] =
      gogParse [ALine.start, ALine.shapeKw ShapeKind.arc, ALine.centerLLA (244/10) (432/10) 0,
        ALine.angleStartKw 10, ALine.angleDegKw 45, ALine.majorKw 100, ALine.minorKw 250,
        ALine.endB] := by
  refine ⟨?_, ?_, by decide, by decide⟩
  · intro la lo al sa e
    simp [gogParse, runCore, stepCore, fieldStep, finalizeShapes, addEll, addCirc, addFill,
      baseShape, sweepOf, convPos, convAlt, convAng, radMod2Pi, turnsOf, posMod360,
      RVal.sub, emptyCur, defUnits, rvd]
  · intro x
    have hfr : posMod360 x = 360 * Int.fract (x / 360) := by
      unfold posMod360 Int.fract
      ring
    constructor
    · rw [hfr]
      have h0 := Int.fract_nonneg (x / 360)
      nlinarith
    · rw [hfr]
      have h1 := Int.fract_lt_one (x / 360)
      nlinarith

/-- Setting a position reaches the most recently begun annotation. -/
theorem setLastPos_append (p : RawPos) (t : String) (o : Option RawPos) :
    ∀ xs : List (String × Option RawPos),
      setLastPos p (xs ++ [(t, o)]) = xs ++ [(t, some p)] := by
  intro xs
  induction xs with
  | nil => rfl
  | cons x ys ih =>
      cases ys with
      | nil => simp [setLastPos]
      | cons y zs => simpa [setLastPos] using ih

/-- Each `annotation <text>` / position pair appends one pending
annotation entry to the open block. -/
theorem runCore_annoPairs :
    ∀ (ps : List (String × ℚ × ℚ)) (c : Cur) (u : UnitsSt),
      runCore (Core.openT ShapeKind.anno c u) (annoPairLines ps) =
        (Core.openT ShapeKind.anno { c with annos := c.annos ++ ps.map annoEntryOf } u, []) := by
  intro ps
  induction ps with
  | nil => intro c u; simp [annoPairLines, runCore]
  | cons p ps ih =>
      intro c u
      obtain ⟨t, la, lo⟩ := p
      have e1 : stepCore (Core.openT ShapeKind.anno c u) (ALine.annoKw t)
          = (Core.openT ShapeKind.anno { c with annos := c.annos ++ [(t, none)] } u, []) := by
        simp [stepCore]
      have e2 : stepCore
          (Core.openT ShapeKind.anno { c with annos := c.annos ++ [(t, none)] } u)
          (ALine.centerLLA la lo 0)
          = (Core.openT ShapeKind.anno
              { c with annos := c.annos ++ [(t, some (RawPos.lla la lo 0))] } u, []) := by
        simp [stepCore, fieldStep, setLastPos_append]
      have ih' := ih { c with annos := c.annos ++ [(t, some (RawPos.lla la lo 0))] } u
      simp [annoPairLines, runCore, e1, e2, ih', annoEntryOf]

/-- All-valid pending annotations finalize to their shapes in order. -/
theorem anno_filterMap_entries (c : Cur) (u : UnitsSt) :
    ∀ ps : List (String × ℚ × ℚ), (∀ p ∈ ps, p.1 ≠ "") →
      List.filterMap
        (fun a => match a.2 with
          | some p => if a.1 = "" then none else some (annoShape c u a.1 p)
          | none => none)
        (ps.map annoEntryOf) =
      ps.map (fun p => annoShape c u p.1 (RawPos.lla p.2.1 p.2.2 0)) := by
  intro ps
  induction ps with
  | nil => intro _; simp
  | cons p t ih =>
      intro h
      have hp : p.1 ≠ "" := h p (by simp)
      simp [annoEntryOf, hp, ih (fun q hq => h q (by simp [hq]))]

/-- Finalization of an annotation block whose entries are all valid. -/
theorem finalize_anno_entries (c : Cur) (u : UnitsSt) (ps : List (String × ℚ × ℚ))
    (h : c.annos = ps.map annoEntryOf) (hne : ∀ p ∈ ps, p.1 ≠ "") :
    finalizeShapes ShapeKind.anno c u =
      ps.map (fun p => annoShape c u p.1 (RawPos.lla p.2.1 p.2.2 0)) := by
  simp only [finalizeShapes, h]
  exact anno_filterMap_entries c u ps hne

/-- Claim C7: an annotation block with n `annotation` keywords, each
followed by its own position, emits exactly n Annotation shapes in
keyword order, each with its own text and position, and all sharing the
non-positional attributes (font, text size, text color, outline color,
outline thickness) captured from whichever annotation set them
explicitly first. -/
theorem gog_nested_annos :
    (∀ (t0 f : String) (la0 lo0 fs : ℚ) (col oc : GColor) (th : OutlineTh)
      (ps : List (String × ℚ × ℚ)), t0 ≠ "" → (∀ p ∈ ps, p.1 ≠ "") →
      gogParse (ALine.start :: ALine.annoKw t0 :: ALine.centerLLA la0 lo0 0 ::
          ALine.fontNameKw f :: ALine.fontSizeKw fs :: ALine.lineColorKw col ::
          ALine.outlineThKw th :: ALine.outlineColorKw oc ::
          (annoPairLines ps ++ [ALine.endB])) =
        ((t0, la0, lo0) :: ps).map
          (fun p => annoShape (c7Ctx t0 f la0 lo0 fs col oc th ps) defUnits p.1
            (RawPos.lla p.2.1 p.2.2 0))) ∧
    (gogParse c7FirstWinsLines).map (fun s => s.getTextSize) = [(0, 24), (0, 24)] := by
  constructor
  · intro t0 f la0 lo0 fs col oc th ps ht0 hps
    have hpre : runCore Core.outside (ALine.start :: ALine.annoKw t0 ::
        ALine.centerLLA la0 lo0 0 :: ALine.fontNameKw f :: ALine.fontSizeKw fs ::
        ALine.lineColorKw col :: ALine.outlineThKw th :: ALine.outlineColorKw oc ::
        (annoPairLines ps ++ [ALine.endB]))
        = runCore (Core.openT ShapeKind.anno
            { emptyCur with
              annos := [(t0, some (RawPos.lla la0 lo0 0))]
              fontName := some f
              fontSizeRaw := some fs
              textColor := some col
              outlineColor := some oc
              outlineTh := some th } defUnits) (annoPairLines ps ++ [ALine.endB]) := by
      simp [runCore, stepCore, fieldStep, setLastPos, setIfNone, emptyCur]
    rw [gogParse, hpre, runCore_append, runCore_annoPairs ps _ defUnits]
    have hne : ∀ p ∈ ((t0, la0, lo0) :: ps), p.1 ≠ "" := by
      intro p hp
      rcases List.mem_cons.mp hp with rfl | h
      · exact ht0
      · exact hps p h
    have hctx : { { emptyCur with
              annos := [(t0, some (RawPos.lla la0 lo0 0))]
              fontName := some f
              fontSizeRaw := some fs
              textColor := some col
              outlineColor := some oc
              outlineTh := some th } with
            annos := [(t0, some (RawPos.lla la0 lo0 0))] ++ ps.map annoEntryOf }
        = c7Ctx t0 f la0 lo0 fs col oc th ps := by
      simp [c7Ctx, annoEntryOf]
    rw [hctx]
    simp only [runCore, stepCore]
    rw [finalize_anno_entries _ _ ((t0, la0, lo0) :: ps) rfl hne]
    simp
  · decide

/-- Witness for C7 at a concrete three-annotation block. -/
theorem gog_nested_annos_witness :
    sLab0 ≠ "" ∧
    (∀ p ∈ [(sLab1, (247/10 : ℚ), (543/10 : ℚ)), (sLab2, 234/10, 554/10)],
      p.1 ≠ "") ∧
    gogParse (ALine.start :: ALine.annoKw sLab0 :: ALine.centerLLA (49/2) (273/5) 0 ::
        ALine.fontNameKw sGeorgia :: ALine.fontSizeKw 24 ::
        ALine.lineColorKw ⟨255, 160, 255, 160⟩ :: ALine.outlineThKw OutlineTh.thin ::
        ALine.outlineColorKw ⟨0, 0, 255, 255⟩ ::
        (annoPairLines [(sLab1, 247/10, 543/10), (sLab2, 234/10, 554/10)] ++ [ALine.endB])) =
      ((sLab0, (49/2 : ℚ), (273/5 : ℚ)) ::
          [(sLab1, 247/10, 543/10), (sLab2, 234/10, 554/10)]).map
        (fun p => annoShape
          (c7Ctx sLab0 sGeorgia (49/2) (273/5) 24 ⟨255, 160, 255, 160⟩ ⟨0, 0, 255, 255⟩
            OutlineTh.thin [(sLab1, 247/10, 543/10), (sLab2, 234/10, 554/10)]) defUnits p.1
          (RawPos.lla p.2.1 p.2.2 0)) :=
  ⟨by decide, by decide,
   gog_nested_annos.1 sLab0 sGeorgia (49/2) (273/5) 24 ⟨255, 160, 255, 160⟩ ⟨0, 0, 255, 255⟩
     OutlineTh.thin [(sLab1, 247/10, 543/10), (sLab2, 234/10, 554/10)] (by decide) (by decide)⟩

/-- A field line acts identically on contexts that agree outside the
angle-family raw fields. -/
theorem fieldStep_stripAngles (k : Option ShapeKind) (c c' : Cur) (u : UnitsSt) (l : ALine)
    (h : stripAngles c = stripAngles c') :
    stripAngles (fieldStep k (c, u) l).1 = stripAngles (fieldStep k (c', u) l).1 := by
  cases c; cases c'
  simp only [stripAngles, Cur.mk.injEq, and_true, true_and] at h
  obtain ⟨h1, h2, h3, h4, h5, h6, h7, h8, h9, h10, h11, h12, h13, h14, h15, h16, h17, h18, h19, h20, h21, h22, h23, h24, h25, h26, h27, h28, h29, h30, h31, h32, h33, h34, h35, h36⟩ := h
  subst_vars
  cases l <;> first | rfl | (simp only [fieldStep]; split <;> rfl)

/-- Folding a body preserves agreement outside the angle-family fields. -/
theorem foldl_stripAngles (k : Option ShapeKind) :
    ∀ (body : List ALine) (s s' : Cur × UnitsSt),
      stripAngles s.1 = stripAngles s'.1 → s.2 = s'.2 →
      stripAngles (List.foldl (fieldStep k) s body).1
          = stripAngles (List.foldl (fieldStep k) s' body).1 ∧
        (List.foldl (fieldStep k) s body).2 = (List.foldl (fieldStep k) s' body).2 := by
  intro body
  induction body with
  | nil => intro s s' h hu; exact ⟨h, hu⟩
  | cons l t ih =>
      intro s s' h hu
      obtain ⟨c, u⟩ := s
      obtain ⟨c', u'⟩ := s'
      obtain rfl : u = u' := hu
      have hstep := fieldStep_stripAngles k c c' u l h
      have hu2 := fieldStep_snd k c c' u l
      rw [List.foldl_cons, List.foldl_cons]
      exact ih (fieldStep k (c, u) l) (fieldStep k (c', u) l) hstep hu2

/-- Ellipsoid finalization never reads the angle-family fields. -/
theorem finalize_ellipsoid_stripAngles (c c' : Cur) (u : UnitsSt)
    (h : stripAngles c = stripAngles c') :
    finalizeShapes ShapeKind.ellipsoid c u = finalizeShapes ShapeKind.ellipsoid c' u := by
  cases c; cases c'
  simp only [stripAngles, Cur.mk.injEq, and_true, true_and] at h
  obtain ⟨h1, h2, h3, h4, h5, h6, h7, h8, h9, h10, h11, h12, h13, h14, h15, h16, h17, h18, h19, h20, h21, h22, h23, h24, h25, h26, h27, h28, h29, h30, h31, h32, h33, h34, h35, h36⟩ := h
  subst_vars
  rfl

/-- An angle-family field line neither changes the stripped context nor
the unit state. -/
theorem fieldStep_angle_strip (k : Option ShapeKind) (s : Cur × UnitsSt) (l : ALine)
    (hl : isAngleFieldSet l = true) :
    stripAngles (fieldStep k s l).1 = stripAngles s.1 ∧ (fieldStep k s l).2 = s.2 := by
  cases l <;> simp_all [isAngleFieldSet, fieldStep, stripAngles]

/-- An angle-family field line is not structural. -/
theorem isAngleFieldSet_not_structural (l : ALine) (hl : isAngleFieldSet l = true) :
    isStructural l = false := by
  cases l <;> simp_all [isAngleFieldSet, isStructural]

/-- Claim C10: angle-family field lines are not part of the Ellipsoid's
capability layers; inserting such a line into an ellipsoid block leaves
the parse output identical, and an ellipsoid block carrying `anglestart`
and `angledeg` lines still produces its ellipsoid with the axes from the
`majoraxis`/`minoraxis` lines. -/
theorem gog_irrelevant_angle_lines :
    (∀ (l : ALine) (body1 body2 rest : List ALine), isAngleFieldSet l = true →
      (∀ x ∈ body1, isStructural x = false) → (∀ x ∈ body2, isStructural x = false) →
      gogParse (ALine.start :: ALine.shapeKw ShapeKind.ellipsoid ::
          (body1 ++ l :: body2) ++ ALine.endB :: rest) =
        gogParse (ALine.start :: ALine.shapeKw ShapeKind.ellipsoid ::
          (body1 ++ body2) ++ ALine.endB :: rest)) ∧
    ((gogParse [ALine.start, ALine.shapeKw ShapeKind.ellipsoid,
        ALine.centerLLA (244/10) (432/10) 0, ALine.radiusKw 1000, ALine.rangeU RUnit.meters,
        ALine.angleStartKw 10, ALine.angleDegKw 45, ALine.majorKw 100, ALine.minorKw 250,
        ALine.heightKw 180, ALine.altU AUnit.meters, ALine.endB]).map
        (fun s => (s.kind, s.majorAxis, s.minorAxis)) =
      [(ShapeKind.ellipsoid, some (rvq 100), some (rvq 250))] ∧
     (gogParse [ALine.start, ALine.shapeKw ShapeKind.ellipsoid,
        ALine.centerLLA (244/10) (432/10) 0, ALine.radiusKw 1000, ALine.rangeU RUnit.meters,
        ALine.angleStartKw 10, ALine.angleDegKw 45, ALine.majorKw 100, ALine.minorKw 250,
        ALine.heightKw 180, ALine.altU AUnit.meters, ALine.endB]).map
        (fun s => (s.height, s.angleStart, s.angleSweep)) =
      [(some (rvq 180), (none : Option RVal), (none : Option RVal))]) := by
  constructor
  · intro l body1 body2 rest hl h1 h2
    have hns := isAngleFieldSet_not_structural l hl
    have hb1 : ∀ x ∈ body1 ++ l :: body2, isStructural x = false := by
      intro x hx
      simp at hx
      rcases hx with hx | rfl | hx
      · exact h1 x hx
      · exact hns
      · exact h2 x hx
    have hb2 : ∀ x ∈ body1 ++ body2, isStructural x = false := by
      intro x hx
      simp at hx
      rcases hx with hx | hx
      · exact h1 x hx
      · exact h2 x hx
    rw [gogParse_typed_block ShapeKind.ellipsoid (by decide) _ rest hb1,
      gogParse_typed_block ShapeKind.ellipsoid (by decide) _ rest hb2]
    simp only [List.foldl_append, List.foldl_cons]
    rcases hSb : List.foldl (fieldStep (some ShapeKind.ellipsoid)) (emptyCur, defUnits) body1
      with ⟨cb, ub⟩
    have hstrip := fieldStep_angle_strip (some ShapeKind.ellipsoid) (cb, ub) l hl
    have hfold := foldl_stripAngles (some ShapeKind.ellipsoid) body2
      (fieldStep (some ShapeKind.ellipsoid) (cb, ub) l) (cb, ub) hstrip.1 hstrip.2
    rw [hfold.2, finalize_ellipsoid_stripAngles _ _ _ hfold.1]
  · exact ⟨by decide, by decide⟩

/-- Witness for C10 at a concrete ellipsoid block. -/
theorem gog_irrelevant_angle_lines_witness :
    isAngleFieldSet (ALine.angleStartKw 10) = true ∧
    gogParse (ALine.start :: ALine.shapeKw ShapeKind.ellipsoid ::
        ([ALine.centerLLA 1 2 0] ++ ALine.angleStartKw 10 :: [ALine.majorKw 100]) ++
        ALine.endB :: []) =
      gogParse (ALine.start :: ALine.shapeKw ShapeKind.ellipsoid ::
        ([ALine.centerLLA 1 2 0] ++ [ALine.majorKw 100]) ++ ALine.endB :: []) :=
  ⟨by decide,
   gog_irrelevant_angle_lines.1 (ALine.angleStartKw 10) [ALine.centerLLA 1 2 0]
     [ALine.majorKw 100] [] (by decide) (by decide) (by decide)⟩

/-- A comment line with no `kml_icon` directive normalizes to nothing. -/
theorem lineToA_comment_none (l : String) (hc : isCommentLine l = true)
    (hk : isKmlIconLine l = false) : lineToA l = none := by
  unfold lineToA
  unfold isCommentLine at hc
  unfold isKmlIconLine at hk
  rcases hd : l.data.dropWhile isWsC with _ | ⟨c, restA⟩
  · simp [hd] at hc
  · rw [hd] at hc hk
    simp at hc
    subst hc
    rcases hsp : splitTok restA with _ | ⟨t1, r1⟩
    · simp [hsp]
    · simp [hsp] at hk
      simp [hsp, hk]

/-- A whitespace-only line normalizes to nothing. -/
theorem lineToA_blank_none (l : String) (hb : isBlankLine l = true) : lineToA l = none := by
  unfold lineToA
  unfold isBlankLine at hb
  rcases hd : l.data.dropWhile isWsC with _ | ⟨c, restA⟩
  · rfl
  · simp [hd] at hb

/-- A dropped line normalizes to nothing. -/
theorem keepLine_false_none (l : String) (h : keepLine l = false) : lineToA l = none := by
  unfold keepLine at h
  rcases hc : isCommentLine l <;> rcases hb : isBlankLine l <;>
    rcases hk : isKmlIconLine l <;> simp [hc, hb, hk] at h <;>
    first
      | exact lineToA_blank_none l hb
      | exact lineToA_comment_none l hc hk

/-- The normalizer skips exactly the dropped lines. -/
theorem filterMap_keepLine :
    ∀ ls : List String, ls.filterMap lineToA = (ls.filter keepLine).filterMap lineToA := by
  intro ls
  induction ls with
  | nil => rfl
  | cons l t ih =>
      rcases hkeep : keepLine l
      · simp [List.filter_cons, hkeep, keepLine_false_none l hkeep, ih]
      · simp [List.filter_cons, hkeep, List.filterMap_cons]
        rw [ih]

/-- Everything from the comment character onward is stripped, mid-line included. -/
theorem stripComment_midline (a b : List Char) (ha : commentCh ∉ a) :
    stripComment commentCh (a ++ commentCh :: b) = a := by
  induction a with
  | nil => simp [stripComment]
  | cons c t ih =>
      simp only [List.mem_cons, not_or] at ha
      simp only [stripComment, List.cons_append, List.takeWhile_cons] at *
      simp [Ne.symm ha.1]
      simpa using ih ha.2

/-- C8 (amended): a mid-line comment strips everything from the comment
character to end of line; whitespace-only lines and ordinary comment lines
contribute nothing; and a parse equals the parse of the input with every
dropped line removed - where the dropped lines are the blank lines and the
comment lines other than the `# kml_icon` directive, which is significant. -/
theorem gog_comment_stripping :
    (∀ ls : List String, gogParseLines ls = gogParseLines (ls.filter keepLine)) ∧
    (∀ l : String, isCommentLine l = true → isKmlIconLine l = false → lineToA l = none) ∧
    (∀ l : String, isBlankLine l = true → lineToA l = none) ∧
    (∀ a b : List Char, commentCh ∉ a →
      stripComment commentCh (a ++ commentCh :: b) = a) := by
  refine ⟨?_, lineToA_comment_none, lineToA_blank_none, stripComment_midline⟩
  intro ls
  unfold gogParseLines
  rw [filterMap_keepLine]

/-- Witness for C8 at concrete lines. -/
theorem gog_comment_stripping_witness :
    gogParseLines c8CexLines = gogParseLines (c8CexLines.filter keepLine) ∧
    lineToA sCmt = none ∧
    lineToA sBlank = none ∧
    stripComment commentCh (['a'] ++ commentCh :: ['b']) = ['a'] :=
  ⟨gog_comment_stripping.1 c8CexLines,
   gog_comment_stripping.2.1 sCmt (by decide) (by decide),
   gog_comment_stripping.2.2.1 sBlank (by decide),
   gog_comment_stripping.2.2.2 ['a'] ['b'] (by decide)⟩

/-- Counterexample to C8 as claimed: removing every comment line is not
behaviour-preserving, because a `# kml_icon <file>` comment line sets the
annotation icon file. -/
theorem gog_comment_claim_cex :
    gogParseLines c8CexLines ≠
      gogParseLines (c8CexLines.filter (fun l => !(isCommentLine l || isBlankLine l))) := by
  decide
